import Mathlib

/-!
# Pomodoro-Zen: the countdown engine and the session controller

A shallow embedding of `src/script.js`.

* JavaScript numbers that hold whole seconds or minutes are `Int`
  (the code only multiplies by 60, subtracts 1 and compares with 0).
* An object lives in a `World`: the `Timer` fields, the table of intervals
  the browser event loop still fires (`setInterval` / `clearInterval`), and
  the rest of the program state the callbacks can reach (`user`).
* A method is a function `World σ → World σ`; the constructor arguments
  `onTick` and `onComplete` are passed to the methods that call them.
* The event loop is a list of events: clicks, one firing of a scheduled
  interval, one firing of a pending timeout. Wall-clock time is not modelled,
  so every interleaving of these events is a run.
* Of the page, the fields the controller writes are kept. The ring's dash
  offset is a floating-point product and is kept as the pair it is computed
  from; `audio.play()` is its synchronous effect on the `paused` attribute.
* The task list shares no state with the timer; its methods work on a
  `TaskList` (input value, list items, `localStorage`). `JSON.stringify` is
  written out for arrays of `{ text, completed }` objects, and `JSON.parse`
  reads what `JSON.stringify` writes; a JavaScript string is a Lean `String`
  (no lone surrogates).
-/

namespace PomodoroZen

/-! ## class Timer -/

/-- Fields of a `Timer` object (`onTick` and `onComplete` are passed to the
methods instead of being stored). `interval` is the handle returned by the
last `setInterval`, `none` for `null`. -/
structure Timer where
  initialDuration : Int
  remaining : Int
  isRunning : Bool
  interval : Option Nat
deriving DecidableEq, Repr

/-- Program state around one `Timer`: `intervals` are the handles of the
intervals that are still scheduled, `nextHandle` is the handle the next
`setInterval` returns, `user` is everything else the callbacks can see. -/
structure World (σ : Type) where
  timer : Timer
  intervals : List Nat
  nextHandle : Nat
  user : σ

/-- The two callbacks handed to the `Timer` constructor. -/
structure Callbacks (σ : Type) where
  onTick : Int → Int → World σ → World σ
  onComplete : World σ → World σ

/-- Fields set by `constructor(duration, onTick, onComplete)`. -/
def Timer.new (duration : Int) : Timer :=
  { initialDuration := duration * 60
    remaining := duration * 60
    isRunning := false
    interval := none }

/-- The world right after `new Timer(duration, ..)`: nothing is scheduled. -/
def World.init {σ : Type} (duration : Int) (u : σ) : World σ :=
  { timer := Timer.new duration, intervals := [], nextHandle := 0, user := u }

/-- Browser `clearInterval(h)`: the interval with that handle is no longer
scheduled; `clearInterval(null)` does nothing. -/
def clearInterval (h : Option Nat) (intervals : List Nat) : List Nat :=
  match h with
  | none => intervals
  | some k => intervals.filter (fun j => j != k)

/-- JavaScript truthiness of the optional numeric argument of `reset`:
`undefined` (no argument) and `0` are falsy, every other integer is truthy. -/
def truthy : Option Int → Bool
  | none => false
  | some d => d != 0

/-- `start()`: no-op when running, else sets `isRunning` and schedules the
tick closure with `setInterval`, keeping the handle. -/
def Timer.start {σ : Type} (w : World σ) : World σ :=
  if w.timer.isRunning then w
  else
    { w with
      timer := { w.timer with isRunning := true, interval := some w.nextHandle }
      intervals := w.nextHandle :: w.intervals
      nextHandle := w.nextHandle + 1 }

/-- `pause()`: no-op when not running, else clears the flag and the interval. -/
def Timer.pause {σ : Type} (w : World σ) : World σ :=
  if !w.timer.isRunning then w
  else
    { w with
      timer := { w.timer with isRunning := false }
      intervals := clearInterval w.timer.interval w.intervals }

/-- `reset(newDuration)`: pause, replace the duration when the argument is
truthy, refill `remaining`, call `onTick(remaining, initialDuration)`. -/
def Timer.reset {σ : Type} (onTick : Int → Int → World σ → World σ)
    (newDuration : Option Int) (w : World σ) : World σ :=
  let w1 := Timer.pause w
  let w2 : World σ :=
    if truthy newDuration then
      { w1 with timer := { w1.timer with initialDuration := newDuration.getD 0 * 60 } }
    else w1
  let w3 : World σ := { w2 with timer := { w2.timer with remaining := w2.timer.initialDuration } }
  onTick w3.timer.remaining w3.timer.initialDuration w3

/-- `complete()`: pause, then call `onComplete()`. -/
def Timer.complete {σ : Type} (onComplete : World σ → World σ) (w : World σ) : World σ :=
  onComplete (Timer.pause w)

/-- Body of the closure given to `setInterval` in `start()`: decrement,
call `onTick`, and call `complete()` when `remaining <= 0`. -/
def Timer.tick {σ : Type} (cb : Callbacks σ) (w : World σ) : World σ :=
  let w1 : World σ := { w with timer := { w.timer with remaining := w.timer.remaining - 1 } }
  let w2 := cb.onTick w1.timer.remaining w1.timer.initialDuration w1
  if w2.timer.remaining ≤ 0 then Timer.complete cb.onComplete w2 else w2

/-- One firing of the event loop for a scheduled interval: every interval of
this program was scheduled by `Timer.start`, so the closure run is
`Timer.tick`; with no interval scheduled nothing runs. -/
def Timer.fire {σ : Type} (cb : Callbacks σ) (w : World σ) : World σ :=
  if w.intervals.isEmpty then w else Timer.tick cb w

/-! ## A Timer with recording callbacks -/

/-- One callback invocation as seen by the caller: `onTick` with its two
arguments, `onComplete` with the timer fields it finds when it is invoked. -/
inductive Call where
  | onTick (remaining total : Int)
  | onComplete (remaining : Int) (isRunning : Bool)
deriving DecidableEq, Repr

/-- Callbacks that only append what they were called with to a log and
leave the timer alone. -/
def spy : Callbacks (List Call) where
  onTick := fun r d w => { w with user := w.user ++ [Call.onTick r d] }
  onComplete := fun w =>
    { w with user := w.user ++ [Call.onComplete w.timer.remaining w.timer.isRunning] }

/-- A Timer constructed with `m` minutes and the recording callbacks,
started, then left alone while `n` interval firings are delivered. -/
def spyRun (m n : Nat) : World (List Call) :=
  (Timer.fire spy)^[n] (Timer.start (World.init (m : Int) []))

/-- Calls a client of the `Timer` can make, and the passing of one second
while an interval is scheduled. -/
inductive TimerOp where
  | start
  | pause
  | reset (newDuration : Option Int)
  | tick
deriving DecidableEq, Repr

/-- Effect of one `TimerOp`. -/
def Timer.apply {σ : Type} (cb : Callbacks σ) : TimerOp → World σ → World σ
  | TimerOp.start, w => Timer.start w
  | TimerOp.pause, w => Timer.pause w
  | TimerOp.reset d, w => Timer.reset cb.onTick d w
  | TimerOp.tick, w => Timer.fire cb w

/-- Effect of a sequence of `TimerOp`s, first to last. -/
def Timer.run {σ : Type} (cb : Callbacks σ) : List TimerOp → World σ → World σ
  | [], w => w
  | op :: ops, w => Timer.run cb ops (Timer.apply cb op w)

/-- A callback that leaves the timer and the interval table as they are
(it only touches the rest of the program state). -/
def FramesTimer {σ : Type} (f : World σ → World σ) : Prop :=
  ∀ w, (f w).timer = w.timer ∧ (f w).intervals = w.intervals ∧ (f w).nextHandle = w.nextHandle

/-- The interval table agrees with the timer: while the timer is running its
own interval is the only one scheduled, otherwise none is. -/
def Scheduled {σ : Type} (w : World σ) : Prop :=
  (w.timer.isRunning = true → ∃ h, w.timer.interval = some h ∧ w.intervals = [h]) ∧
    (w.timer.isRunning = false → w.intervals = [])

/-- An `<audio>` element: its `paused` attribute and its playback position. -/
structure Audio where
  paused : Bool
  currentTime : Nat
deriving DecidableEq, Repr

/-- `audio.play()`: the element is no longer paused. -/
def Audio.play (a : Audio) : Audio := { a with paused := false }

/-- `audio.pause()`. -/
def Audio.pause (a : Audio) : Audio := { a with paused := true }

/-- The parts of the page the controller writes to. `progress` is the pair
`(remaining, total)` whose quotient scales the ring's dash offset. -/
structure Dom where
  timeDisplay : String
  progress : Int × Int
  btnToggle : String
  modeIndicator : String
  pomodoroCounter : String
  bodyModeBreak : Bool
  modalHidden : Bool
  audioZen : Audio
  audioLofi : Audio
  audioGong : Audio
deriving DecidableEq, Repr

/-- Fields of the `App` object other than `timer`, the page, and the number
of `setTimeout` callbacks (each one calls `playAudio`) that are still pending. -/
structure AppFields where
  isStudyMode : Bool
  studyTime : Int
  breakTime : Int
  completedSessions : Nat
  dom : Dom
  timeouts : Nat
deriving DecidableEq, Repr

/-- The `App` object with its `Timer` and the browser's interval table. -/
abbrev App := World AppFields

/-- Update of the page inside an `App`. -/
def App.setDom (f : Dom → Dom) (w : App) : App :=
  { w with user := { w.user with dom := f w.user.dom } }

/-- `s.padStart(target, c)` for a one-character pad string. -/
def padStart (target : Nat) (c : Char) (s : String) : String :=
  String.mk (List.replicate (target - s.length) c) ++ s

/-- The text `updateDisplay` writes: `Math.floor(remaining / 60)` and the
JavaScript remainder `remaining % 60`, each padded to two characters. -/
def formatTime (remaining : Int) : String :=
  padStart 2 '0' (toString (remaining / 60)) ++ ":" ++
    padStart 2 '0' (toString (Int.tmod remaining 60))

/-- `updateDisplay(remaining, total)`. -/
def App.updateDisplay (remaining total : Int) (w : App) : App :=
  App.setDom (fun d => { d with timeDisplay := formatTime remaining, progress := (remaining, total) }) w

/-- `pauseAudio()`. -/
def App.pauseAudio (w : App) : App :=
  App.setDom (fun d => { d with audioZen := d.audioZen.pause, audioLofi := d.audioLofi.pause }) w

/-- `resetAudio()`. -/
def App.resetAudio (w : App) : App :=
  App.setDom (fun d =>
    { d with audioZen := { d.audioZen with currentTime := 0 }
             audioLofi := { d.audioLofi with currentTime := 0 } }) w

/-- `playAudio()`: nothing when the timer is not running, else the other
mode's track is paused and this mode's track is played. -/
def App.playAudio (w : App) : App :=
  if !w.timer.isRunning then w
  else if w.user.isStudyMode then
    App.setDom (fun d => { d with audioLofi := d.audioLofi.pause, audioZen := d.audioZen.play }) w
  else
    App.setDom (fun d => { d with audioZen := d.audioZen.pause, audioLofi := d.audioLofi.play }) w

/-- `switchMode()`, the `onComplete` callback of the App's timer. -/
def App.switchMode (w : App) : App :=
  let w1 : App :=
    if w.user.isStudyMode then
      App.setDom (fun d => { d with pomodoroCounter := "Sesiones: " ++ toString (w.user.completedSessions + 1) })
        { w with user := { w.user with completedSessions := w.user.completedSessions + 1 } }
    else w
  let w2 : App := { w1 with user := { w1.user with isStudyMode := !w1.user.isStudyMode } }
  let w3 : App := App.setDom (fun d => { d with audioGong := Audio.play { d.audioGong with currentTime := 0 } }) w2
  let w4 : App :=
    if w3.user.isStudyMode then
      Timer.reset App.updateDisplay (some w3.user.studyTime)
        (App.setDom (fun d => { d with modeIndicator := "Modo Estudio", bodyModeBreak := false }) w3)
    else
      Timer.reset App.updateDisplay (some w3.user.breakTime)
        (App.setDom (fun d => { d with modeIndicator := "Modo Descanso", bodyModeBreak := true }) w3)
  let w5 : App := Timer.start w4
  { w5 with user := { w5.user with timeouts := w5.user.timeouts + 1 } }

/-- The callbacks `new Timer(this.studyTime, updateDisplay, switchMode)` gets. -/
def App.callbacks : Callbacks AppFields where
  onTick := App.updateDisplay
  onComplete := App.switchMode

/-- `toggleTimer()`. -/
def App.toggleTimer (w : App) : App :=
  if w.timer.isRunning then
    App.pauseAudio
      (App.setDom (fun d => { d with btnToggle := "<span class=\"icon\">▶</span> Iniciar" })
        (Timer.pause w))
  else
    App.playAudio
      (App.setDom (fun d => { d with btnToggle := "<span class=\"icon\">⏸</span> Pausar" })
        (Timer.start w))

/-- `resetTimer()`. -/
def App.resetTimer (w : App) : App :=
  App.resetAudio
    (App.pauseAudio
      (App.setDom (fun d => { d with btnToggle := "<span class=\"icon\">▶</span> Iniciar" })
        (Timer.reset App.updateDisplay none w)))

/-- `saveSettings()` on the two values `parseInt` produced (`none` is `NaN`,
for which `> 0` is false). -/
def App.saveSettings (newStudy newBreak : Option Int) (w : App) : App :=
  match newStudy, newBreak with
  | some s, some b =>
    if 0 < s ∧ 0 < b then
      let w1 : App := { w with user := { w.user with studyTime := s, breakTime := b } }
      let w2 : App :=
        if w1.user.isStudyMode then Timer.reset App.updateDisplay (some w1.user.studyTime) w1
        else Timer.reset App.updateDisplay (some w1.user.breakTime) w1
      App.setDom (fun d => { d with modalHidden := true }) w2
    else w
  | _, _ => w

/-- The `App` constructor on the page as it was loaded: Study mode, 25 and 5
minutes, no completed session, a fresh `Timer`, one `updateDisplay`. (The
listeners it registers are the cases of `App.step`; `loadTodos()` only fills
the task list.) -/
def App.new (page : Dom) : App :=
  App.updateDisplay (25 * 60) (25 * 60)
    (World.init 25
      { isStudyMode := true, studyTime := 25, breakTime := 5, completedSessions := 0
        dom := page, timeouts := 0 })

/-- What the event loop can deliver to the App: the clicks wired in
`initEventListeners`, a scheduled interval firing, a pending timeout firing. -/
inductive AppEvent where
  | clickToggle
  | clickReset
  | clickSettings
  | clickCancel
  | clickSave (newStudy newBreak : Option Int)
  | tick
  | timeout
deriving DecidableEq, Repr

/-- The handler run for one event. A `timeout` with none pending does nothing. -/
def App.step : AppEvent → App → App
  | AppEvent.clickToggle, w => App.toggleTimer w
  | AppEvent.clickReset, w => App.resetTimer w
  | AppEvent.clickSettings, w => App.setDom (fun d => { d with modalHidden := false }) w
  | AppEvent.clickCancel, w => App.setDom (fun d => { d with modalHidden := true }) w
  | AppEvent.clickSave s b, w => App.saveSettings s b w
  | AppEvent.tick, w => Timer.fire App.callbacks w
  | AppEvent.timeout, w =>
    if w.user.timeouts = 0 then w
    else App.playAudio { w with user := { w.user with timeouts := w.user.timeouts - 1 } }

/-- The state after a sequence of events, first to last. -/
def App.run : List AppEvent → App → App
  | [], w => w
  | e :: es, w => App.run es (App.step e w)

/-- States the App can be in between two event handlers. -/
def App.Reachable (w : App) : Prop :=
  ∃ (page : Dom) (es : List AppEvent), App.run es (App.new page) = w

/-- Whether delivering `e` in state `w` makes the countdown complete, that is
whether the tick closure runs and finds `remaining <= 0` after its decrement. -/
def App.completes (e : AppEvent) (w : App) : Bool :=
  e == AppEvent.tick && !w.intervals.isEmpty && decide (w.timer.remaining - 1 ≤ 0)

/-- Number of countdown completions while `es` is delivered from `w`. -/
def App.completions : List AppEvent → App → Nat
  | [], _ => 0
  | e :: es, w => (if App.completes e w then 1 else 0) + App.completions es (App.step e w)

/-- The minutes configured for the mode the App is in. -/
def App.activeMinutes (w : App) : Int :=
  if w.user.isStudyMode then w.user.studyTime else w.user.breakTime

/-- What holds of the App between two event handlers: both settings are above
zero, the timer's total is the active mode's duration, between one second and
the total remain, and the interval table agrees with the timer. -/
def App.Inv (w : App) : Prop :=
  0 < w.user.studyTime ∧ 0 < w.user.breakTime ∧
    w.timer.initialDuration = 60 * App.activeMinutes w ∧
    1 ≤ w.timer.remaining ∧ w.timer.remaining ≤ w.timer.initialDuration ∧
    Scheduled w

/-- A page with empty texts, the settings dialog hidden and the three audio
elements paused at their start. -/
def Dom.blank : Dom :=
  { timeDisplay := "", progress := (0, 0), btnToggle := "", modeIndicator := ""
    pomodoroCounter := "", bodyModeBreak := false, modalHidden := true
    audioZen := { paused := true, currentTime := 0 }
    audioLofi := { paused := true, currentTime := 0 }
    audioGong := { paused := true, currentTime := 0 } }

/-- The App one second into its first Study countdown: the toggle button was
clicked and one tick has passed. -/
def App.afterOneTick : App :=
  App.run [AppEvent.clickToggle, AppEvent.tick] (App.new Dom.blank)

/-- At most one of the two ambient tracks is playing: `audioZen` or
`audioLofi` is paused. -/
def App.NotBothPlaying (w : App) : Prop :=
  w.user.dom.audioZen.paused = true ∨ w.user.dom.audioLofi.paused = true

/-- The App right after its first completion, paused by hand before the
delayed `playAudio` has fired: the toggle button was clicked, 1500 ticks have
passed, the toggle button was clicked again. -/
def App.pausedAfterCompletion : App :=
  App.run (AppEvent.clickToggle :: List.replicate 1500 AppEvent.tick ++ [AppEvent.clickToggle])
    (App.new Dom.blank)

/-- The App with a countdown started and a settings update to the same 25 and
5 minutes accepted while it runs. -/
def App.savedWhileRunning : App :=
  App.run [AppEvent.clickToggle, AppEvent.clickSave (some 25) (some 5)] (App.new Dom.blank)

/-! ## The task list of class App -/

/-- A task as `saveTodos` stores it: `{ text, completed }`. -/
structure Todo where
  text : String
  completed : Bool
deriving DecidableEq, Repr

/-- An `li.todo-item` of the list: the `textContent` of its span, the
`checked` flag of its checkbox, and whether it carries the class `completed`. -/
structure TodoItem where
  text : String
  checked : Bool
  completedClass : Bool
deriving DecidableEq, Repr

/-- The part of the program the task list methods work on: the value of
`#todo-input`, the items of `#todo-list` in document order, and `localStorage`. -/
structure TaskList where
  todoInput : String
  todoList : List TodoItem
  localStorage : String → Option String

/-- The key `saveTodos` and `loadTodos` use. -/
def storageKey : String := "zenfocus_todos"

/-- Characters `String.prototype.trim` removes: ECMAScript WhiteSpace and
LineTerminator code points. -/
def isTrimChar (c : Char) : Bool :=
  c.toNat = 0x09 || c.toNat = 0x0A || c.toNat = 0x0B || c.toNat = 0x0C || c.toNat = 0x0D ||
  c.toNat = 0x20 || c.toNat = 0xA0 || c.toNat = 0x1680 ||
  (0x2000 ≤ c.toNat && c.toNat ≤ 0x200A) ||
  c.toNat = 0x2028 || c.toNat = 0x2029 || c.toNat = 0x202F || c.toNat = 0x205F ||
  c.toNat = 0x3000 || c.toNat = 0xFEFF

/-- `s.trim()`. -/
def jsTrim (s : String) : String :=
  String.mk ((s.data.dropWhile isTrimChar).reverse.dropWhile isTrimChar).reverse

/-- `QuoteJSONString` for one character: the two-character escapes, `\u00XX`
for the other control characters, the character itself otherwise. -/
def JSON.quoteChar (c : Char) : List Char :=
  if c.toNat = 0x08 then ['\\', 'b']
  else if c.toNat = 0x09 then ['\\', 't']
  else if c.toNat = 0x0A then ['\\', 'n']
  else if c.toNat = 0x0C then ['\\', 'f']
  else if c.toNat = 0x0D then ['\\', 'r']
  else if c.toNat = 0x22 then ['\\', '"']
  else if c.toNat = 0x5C then ['\\', '\\']
  else if c.toNat < 0x20 then
    ['\\', 'u', '0', '0', Nat.digitChar (c.toNat / 16), Nat.digitChar (c.toNat % 16)]
  else [c]

/-- The characters between the quotes of `JSON.stringify(text)`. -/
def JSON.quoteChars : List Char → List Char
  | [] => []
  | c :: cs => JSON.quoteChar c ++ JSON.quoteChars cs

/-- `JSON.stringify` of one `{ text, completed }` object. -/
def JSON.stringifyTodo (t : Todo) : List Char :=
  "\x7b\"text\":\"".data ++ JSON.quoteChars t.text.data ++ "\",\"completed\":".data ++
    (if t.completed then "true".data else "false".data) ++ "\x7d".data

/-- The elements of the array, separated by commas. -/
def JSON.stringifyItems : List Todo → List Char
  | [] => []
  | t :: ts =>
    match ts with
    | [] => JSON.stringifyTodo t
    | _ :: _ => JSON.stringifyTodo t ++ ',' :: JSON.stringifyItems ts

/-- `JSON.stringify(todos)` for an array of `{ text, completed }` objects. -/
def JSON.stringify (ts : List Todo) : String :=
  String.mk ('[' :: JSON.stringifyItems ts ++ [']'])

/-- Value of a hexadecimal digit. -/
def JSON.hexVal (c : Char) : Option Nat :=
  if 48 ≤ c.toNat ∧ c.toNat ≤ 57 then some (c.toNat - 48)
  else if 97 ≤ c.toNat ∧ c.toNat ≤ 102 then some (c.toNat - 87)
  else if 65 ≤ c.toNat ∧ c.toNat ≤ 70 then some (c.toNat - 55)
  else none

/-- The character a two-character escape `\e` stands for. -/
def JSON.unescape (e : Char) : Option Char :=
  if e = '"' then some '"'
  else if e = '\\' then some '\\'
  else if e = '/' then some '/'
  else if e = 'b' then some (Char.ofNat 0x08)
  else if e = 'f' then some (Char.ofNat 0x0C)
  else if e = 'n' then some '\n'
  else if e = 'r' then some '\r'
  else if e = 't' then some '\t'
  else none

/-- Reading a JSON string after its opening quote: the text up to the closing
quote and the input after it. Raw control characters are rejected, as in
`JSON.parse`; a `\uXXXX` escape of a surrogate is outside this model. -/
def JSON.unquote : List Char → Option (List Char × List Char)
  | [] => none
  | c :: rest =>
    if c = '"' then some ([], rest)
    else if c = '\\' then
      match rest with
      | [] => none
      | e :: rest1 =>
        if e = 'u' then
          match rest1 with
          | a :: b :: c2 :: d :: rest2 =>
            match JSON.hexVal a, JSON.hexVal b, JSON.hexVal c2, JSON.hexVal d,
                JSON.unquote rest2 with
            | some x, some y, some z, some v, some (s, r) =>
              if 0xD800 ≤ ((x * 16 + y) * 16 + z) * 16 + v ∧
                  ((x * 16 + y) * 16 + z) * 16 + v ≤ 0xDFFF then none
              else some (Char.ofNat (((x * 16 + y) * 16 + z) * 16 + v) :: s, r)
            | _, _, _, _, _ => none
          | _ => none
        else
          match JSON.unescape e, JSON.unquote rest1 with
          | some ch, some (s, r) => some (ch :: s, r)
          | _, _ => none
    else if c.toNat < 0x20 then none
    else
      match JSON.unquote rest with
      | some (s, r) => some (c :: s, r)
      | none => none

/-- The input after the expected characters, if it starts with them. -/
def JSON.expect : List Char → List Char → Option (List Char)
  | [], s => some s
  | _ :: _, [] => none
  | p :: ps, c :: cs => if p = c then JSON.expect ps cs else none

/-- Reading one object as `JSON.stringify` writes it, followed by the reads
of `todo.text` and `todo.completed`. -/
def JSON.parseTodo (s : List Char) : Option (Todo × List Char) :=
  match JSON.expect "\x7b\"text\":\"".data s with
  | none => none
  | some s1 =>
    match JSON.unquote s1 with
    | none => none
    | some (text, s2) =>
      match JSON.expect ",\"completed\":".data s2 with
      | none => none
      | some s3 =>
        match JSON.expect "true".data s3 with
        | some s4 =>
          match JSON.expect "\x7d".data s4 with
          | some s5 => some ({ text := String.mk text, completed := true }, s5)
          | none => none
        | none =>
          match JSON.expect "false".data s3 with
          | some s4 =>
            match JSON.expect "\x7d".data s4 with
            | some s5 => some ({ text := String.mk text, completed := false }, s5)
            | none => none
          | none => none

/-- Reading the elements of a non-empty array up to its closing bracket;
`fuel` bounds the number of elements. -/
def JSON.parseItems : Nat → List Char → Option (List Todo)
  | 0, _ => none
  | fuel + 1, s =>
    match JSON.parseTodo s with
    | none => none
    | some (t, r) =>
      match r with
      | [] => none
      | c :: r1 =>
        if c = ']' then (if r1 = [] then some [t] else none)
        else if c = ',' then
          match JSON.parseItems fuel r1 with
          | some ts => some (t :: ts)
          | none => none
        else none

/-- `JSON.parse(saved)` on the texts `JSON.stringify` writes for arrays of
`{ text, completed }` objects; `none` stands for every other text (a
`SyntaxError`, or a value of another shape, which the code does not handle). -/
def JSON.parse (saved : String) : Option (List Todo) :=
  match saved.data with
  | [] => none
  | c :: r =>
    if c = '[' then
      (if r = [']'] then some [] else JSON.parseItems r.length r)
    else none

/-- `createTodoElement(text, completed)`: a new item at the end of the list. -/
def TaskList.createTodoElement (text : String) (completed : Bool) (s : TaskList) : TaskList :=
  { s with
    todoList := s.todoList ++ [{ text := text, checked := completed, completedClass := completed }] }

/-- The array `saveTodos` builds from the items of the list, in document order. -/
def TaskList.todos (s : TaskList) : List Todo :=
  s.todoList.map (fun item => { text := item.text, completed := item.checked })

/-- `saveTodos()`. -/
def TaskList.saveTodos (s : TaskList) : TaskList :=
  { s with
    localStorage := Function.update s.localStorage storageKey (some (JSON.stringify s.todos)) }

/-- `loadTodos()`: nothing when no value or the empty string is stored (both
are falsy), else one `createTodoElement` per stored task, in stored order;
`none` when `JSON.parse` does not return such an array. -/
def TaskList.loadTodos (s : TaskList) : Option TaskList :=
  match s.localStorage storageKey with
  | none => some s
  | some saved =>
    if saved = "" then some s
    else
      match JSON.parse saved with
      | none => none
      | some ts => some (ts.foldl (fun acc t => acc.createTodoElement t.text t.completed) s)

/-- `addTodo()`. -/
def TaskList.addTodo (s : TaskList) : TaskList :=
  if jsTrim s.todoInput = "" then s
  else
    TaskList.saveTodos
      { TaskList.createTodoElement (jsTrim s.todoInput) false s with todoInput := "" }

/-- A click on the checkbox of item `i`: the browser flips `checked`, then
the `change` listener toggles the class and calls `saveTodos()`. -/
def TaskList.toggleTodo (i : Nat) (s : TaskList) : TaskList :=
  if i < s.todoList.length then
    TaskList.saveTodos
      { s with
        todoList := s.todoList.modify
          (fun item => { item with checked := !item.checked, completedClass := !item.completedClass })
          i }
  else s

/-- A click on the delete button of item `i`: `li.remove()`, then `saveTodos()`. -/
def TaskList.deleteTodo (i : Nat) (s : TaskList) : TaskList :=
  if i < s.todoList.length then
    TaskList.saveTodos { s with todoList := s.todoList.eraseIdx i }
  else s

/-- The task list when the page is loaded again: an empty input, an empty
list and the storage as it was left, then `loadTodos()` from the constructor. -/
def TaskList.reload (s : TaskList) : Option TaskList :=
  TaskList.loadTodos { todoInput := "", todoList := [], localStorage := s.localStorage }

/-- The stored value is the serialisation of the tasks now in the list, and
loading the page again rebuilds a list with exactly these tasks. -/
def TaskList.Persisted (s : TaskList) : Prop :=
  s.localStorage storageKey = some (JSON.stringify s.todos) ∧
    ∃ r, TaskList.reload s = some r ∧ r.todos = s.todos

/-- A task list with one open task, nothing stored, and a new task typed
into the input with blanks around it. -/
def TaskList.sample : TaskList :=
  { todoInput := "  buy milk "
    todoList := [{ text := "write report", checked := false, completedClass := false }]
    localStorage := fun _ => none }

/-! ## Theorems: the countdown engine -/

/-- A tick that leaves more than zero seconds only decrements `remaining`,
when `onTick` leaves the timer alone. -/
theorem Timer.tick_of_one_lt {σ : Type} (cb : Callbacks σ)
    (hT : ∀ r d, FramesTimer (cb.onTick r d)) (w : World σ) (h : 1 < w.timer.remaining) :
    (Timer.tick cb w).timer = { w.timer with remaining := w.timer.remaining - 1 } ∧
      (Timer.tick cb w).intervals = w.intervals ∧
      (Timer.tick cb w).nextHandle = w.nextHandle := by
  obtain ⟨h1, h2, h3⟩ := hT (w.timer.remaining - 1) w.timer.initialDuration
    { w with timer := { w.timer with remaining := w.timer.remaining - 1 } }
  have hpos : ¬ (w.timer.remaining - 1 ≤ 0) := by omega
  simp only [Timer.tick, h1, hpos, if_false]
  exact ⟨trivial, h2, h3⟩

/-- While more than `n` seconds remain, `n` firings of a scheduled interval
take exactly `n` seconds off `remaining` and change nothing else of the timer. -/
theorem Timer.fire_iterate {σ : Type} (cb : Callbacks σ)
    (hT : ∀ r d, FramesTimer (cb.onTick r d)) (w : World σ) (hs : w.intervals ≠ [])
    (n : Nat) (h : (n : Int) < w.timer.remaining) :
    ((Timer.fire cb)^[n] w).timer = { w.timer with remaining := w.timer.remaining - n } ∧
      ((Timer.fire cb)^[n] w).intervals = w.intervals ∧
      ((Timer.fire cb)^[n] w).nextHandle = w.nextHandle := by
  induction n with
  | zero => simp
  | succ k ih =>
    obtain ⟨i1, i2, i3⟩ := ih (by push_cast at h; omega)
    have hne : ((Timer.fire cb)^[k] w).intervals.isEmpty = false := by
      rw [i2]; cases hw : w.intervals with
      | nil => exact absurd hw hs
      | cons a l => rfl
    have hlt : 1 < ((Timer.fire cb)^[k] w).timer.remaining := by
      rw [i1]; push_cast at h; simp only; omega
    obtain ⟨t1, t2, t3⟩ := Timer.tick_of_one_lt cb hT _ hlt
    rw [Function.iterate_succ_apply']
    simp only [Timer.fire, hne, Bool.false_eq_true, if_false]
    refine ⟨?_, by rw [t2, i2], by rw [t3, i3]⟩
    rw [t1, i1]
    simp only [Timer.mk.injEq, and_true, true_and]
    push_cast; omega

/-- The recording `onTick` leaves the timer alone. -/
theorem spy_onTick_frames : ∀ r d, FramesTimer (spy.onTick r d) := by
  intro r d w
  exact ⟨rfl, rfl, rfl⟩

/-- `pause` does not touch the rest of the program state. -/
theorem Timer.pause_user {σ : Type} (w : World σ) : (Timer.pause w).user = w.user := by
  unfold Timer.pause; split <;> rfl

/-- After `pause` the timer is not running and keeps its other fields. -/
theorem Timer.pause_timer {σ : Type} (w : World σ) :
    (Timer.pause w).timer = { w.timer with isRunning := false } := by
  unfold Timer.pause
  cases h : w.timer.isRunning with
  | false =>
    simp only [Bool.not_false, if_true]
    cases ht : w.timer with
    | mk a b c d => rw [ht] at h; simp only at h; simp [h]
  | true => simp

/-- `start` does not touch the rest of the program state. -/
theorem Timer.start_user {σ : Type} (w : World σ) : (Timer.start w).user = w.user := by
  unfold Timer.start; split <;> rfl

/-- After `start` the timer is running, with both counters as before. -/
theorem Timer.start_timer {σ : Type} (w : World σ) :
    (Timer.start w).timer.isRunning = true ∧
      (Timer.start w).timer.remaining = w.timer.remaining ∧
      (Timer.start w).timer.initialDuration = w.timer.initialDuration := by
  unfold Timer.start
  cases h : w.timer.isRunning <;> simp [h]

/-- `updateDisplay` only writes to the page. -/
theorem App.updateDisplay_frames : ∀ r d, FramesTimer (App.updateDisplay r d) := by
  intro r d w
  exact ⟨rfl, rfl, rfl⟩

/-- `updateDisplay` keeps every `App` field other than the page. -/
theorem App.updateDisplay_user (r d : Int) (w : App) :
    (App.updateDisplay r d w).user = { w.user with dom := (App.updateDisplay r d w).user.dom } := rfl

/-- The timer after `reset`, when `onTick` leaves the timer alone: stopped,
refilled, with the new duration when the argument is truthy. -/
theorem Timer.reset_timer {σ : Type} (onTick : Int → Int → World σ → World σ)
    (hT : ∀ r d, FramesTimer (onTick r d)) (d : Option Int) (w : World σ) :
    (Timer.reset onTick d w).timer =
      { initialDuration := if truthy d then d.getD 0 * 60 else w.timer.initialDuration
        remaining := if truthy d then d.getD 0 * 60 else w.timer.initialDuration
        isRunning := false
        interval := w.timer.interval } := by
  unfold Timer.reset
  simp only [(hT _ _ _).1]
  cases truthy d <;> simp [Timer.pause_timer]

/-- In the App, `reset` keeps every field of the `App` object (it writes to
the page only). -/
theorem App.reset_fields (d : Option Int) (w : App) :
    (Timer.reset App.updateDisplay d w).user.isStudyMode = w.user.isStudyMode ∧
    (Timer.reset App.updateDisplay d w).user.completedSessions = w.user.completedSessions ∧
    (Timer.reset App.updateDisplay d w).user.studyTime = w.user.studyTime ∧
    (Timer.reset App.updateDisplay d w).user.breakTime = w.user.breakTime ∧
    (Timer.reset App.updateDisplay d w).user.timeouts = w.user.timeouts := by
  unfold Timer.reset
  cases truthy d <;> simp [App.updateDisplay, App.setDom, Timer.pause_user]

/-- The tick closure of the App's timer, with its two callbacks filled in. -/
theorem App.fire_eq (w : App) :
    Timer.fire App.callbacks w =
      if w.intervals.isEmpty then w
      else if w.timer.remaining - 1 ≤ 0 then
        App.switchMode (Timer.pause (App.updateDisplay (w.timer.remaining - 1) w.timer.initialDuration
          { w with timer := { w.timer with remaining := w.timer.remaining - 1 } }))
      else
        App.updateDisplay (w.timer.remaining - 1) w.timer.initialDuration
          { w with timer := { w.timer with remaining := w.timer.remaining - 1 } } := by
  simp only [Timer.fire, Timer.tick, Timer.complete, App.callbacks]
  rfl

/-- What `switchMode` does to the fields of the `App` object and to its timer. -/
theorem App.switchMode_fields (w : App) :
    (App.switchMode w).user.isStudyMode = (!w.user.isStudyMode) ∧
    (App.switchMode w).user.completedSessions =
      (if w.user.isStudyMode then w.user.completedSessions + 1 else w.user.completedSessions) ∧
    (App.switchMode w).user.studyTime = w.user.studyTime ∧
    (App.switchMode w).user.breakTime = w.user.breakTime ∧
    (App.switchMode w).user.timeouts = w.user.timeouts + 1 ∧
    (App.switchMode w).timer.isRunning = true ∧
    (App.switchMode w).timer.remaining = (App.switchMode w).timer.initialDuration ∧
    (App.switchMode w).timer.initialDuration =
      (if w.user.isStudyMode then
        (if w.user.breakTime = 0 then w.timer.initialDuration else w.user.breakTime * 60)
       else
        (if w.user.studyTime = 0 then w.timer.initialDuration else w.user.studyTime * 60)) := by
  unfold App.switchMode
  simp only [Timer.start_user, (Timer.start_timer _).2.1, (Timer.start_timer _).2.2,
    (Timer.start_timer _).1]
  cases hm : w.user.isStudyMode
  · simp only [Bool.false_eq_true, if_false, Bool.not_false, App.setDom, if_true,
      (App.reset_fields _ _).1, (App.reset_fields _ _).2.1, (App.reset_fields _ _).2.2.1,
      (App.reset_fields _ _).2.2.2.1, (App.reset_fields _ _).2.2.2.2,
      Timer.reset_timer _ App.updateDisplay_frames, truthy, hm]
    by_cases h0 : w.user.studyTime = 0 <;> simp [h0]
  · simp only [if_true, Bool.not_true, App.setDom, Bool.false_eq_true, if_false,
      (App.reset_fields _ _).1, (App.reset_fields _ _).2.1, (App.reset_fields _ _).2.2.1,
      (App.reset_fields _ _).2.2.2.1, (App.reset_fields _ _).2.2.2.2,
      Timer.reset_timer _ App.updateDisplay_frames, truthy, hm]
    by_cases h0 : w.user.breakTime = 0 <;> simp [h0]


/-- `playAudio` only writes to the page. -/
theorem App.playAudio_fields (w : App) :
    (App.playAudio w).timer = w.timer ∧ (App.playAudio w).intervals = w.intervals ∧
    (App.playAudio w).user.isStudyMode = w.user.isStudyMode ∧
    (App.playAudio w).user.completedSessions = w.user.completedSessions ∧
    (App.playAudio w).user.studyTime = w.user.studyTime ∧
    (App.playAudio w).user.breakTime = w.user.breakTime ∧
    (App.playAudio w).user.timeouts = w.user.timeouts := by
  unfold App.playAudio
  split_ifs <;> simp [App.setDom]

/-- `toggleTimer` keeps the mode, the counter, the settings and both counters
of the timer. -/
theorem App.toggleTimer_fields (w : App) :
    (App.toggleTimer w).user.isStudyMode = w.user.isStudyMode ∧
    (App.toggleTimer w).user.completedSessions = w.user.completedSessions ∧
    (App.toggleTimer w).user.studyTime = w.user.studyTime ∧
    (App.toggleTimer w).user.breakTime = w.user.breakTime ∧
    (App.toggleTimer w).timer.initialDuration = w.timer.initialDuration ∧
    (App.toggleTimer w).timer.remaining = w.timer.remaining ∧
    (App.toggleTimer w).timer.isRunning = (!w.timer.isRunning) := by
  unfold App.toggleTimer
  cases h : w.timer.isRunning
  · simp only [Bool.false_eq_true, if_false, (App.playAudio_fields _).1,
      (App.playAudio_fields _).2.2.1, (App.playAudio_fields _).2.2.2.1,
      (App.playAudio_fields _).2.2.2.2.1, (App.playAudio_fields _).2.2.2.2.2.1]
    simp [App.setDom, Timer.start_user, Timer.start_timer]
  · simp [App.pauseAudio, App.setDom, Timer.pause_user, Timer.pause_timer]

/-- `resetTimer` keeps the mode, the counter and the settings, and leaves the
timer stopped and refilled to its `initialDuration`. -/
theorem App.resetTimer_fields (w : App) :
    (App.resetTimer w).user.isStudyMode = w.user.isStudyMode ∧
    (App.resetTimer w).user.completedSessions = w.user.completedSessions ∧
    (App.resetTimer w).user.studyTime = w.user.studyTime ∧
    (App.resetTimer w).user.breakTime = w.user.breakTime ∧
    (App.resetTimer w).timer.initialDuration = w.timer.initialDuration ∧
    (App.resetTimer w).timer.remaining = w.timer.initialDuration ∧
    (App.resetTimer w).timer.isRunning = false := by
  unfold App.resetTimer
  simp [App.resetAudio, App.pauseAudio, App.setDom, App.reset_fields,
    Timer.reset_timer _ App.updateDisplay_frames, truthy]

/-- `saveSettings` keeps the mode and the counter; when both values are above
zero it stores them and leaves the timer stopped and refilled to 60 times the
value of the active mode, otherwise it changes nothing. -/
theorem App.saveSettings_fields (s b : Option Int) (w : App) :
    (App.saveSettings s b w).user.isStudyMode = w.user.isStudyMode ∧
    (App.saveSettings s b w).user.completedSessions = w.user.completedSessions ∧
    ((∃ s0 b0, s = some s0 ∧ b = some b0 ∧ 0 < s0 ∧ 0 < b0 ∧
        (App.saveSettings s b w).user.studyTime = s0 ∧
        (App.saveSettings s b w).user.breakTime = b0 ∧
        (App.saveSettings s b w).timer.initialDuration =
          (if w.user.isStudyMode then s0 else b0) * 60 ∧
        (App.saveSettings s b w).timer.remaining = (if w.user.isStudyMode then s0 else b0) * 60 ∧
        (App.saveSettings s b w).timer.isRunning = false) ∨
      ((∀ s0 b0, s = some s0 → b = some b0 → ¬ (0 < s0 ∧ 0 < b0)) ∧ App.saveSettings s b w = w)) := by
  cases s with
  | none => simp [App.saveSettings]
  | some s0 =>
    cases b with
    | none => simp [App.saveSettings]
    | some b0 =>
      by_cases h : 0 < s0 ∧ 0 < b0
      · have hs : s0 ≠ 0 := by omega
        have hb : b0 ≠ 0 := by omega
        cases hm : w.user.isStudyMode <;>
          simp [App.saveSettings, h, hm, App.setDom, App.reset_fields,
            Timer.reset_timer _ App.updateDisplay_frames, truthy, hs, hb]
      · refine ⟨by simp [App.saveSettings, h], by simp [App.saveSettings, h], Or.inr ⟨?_, ?_⟩⟩
        · intro s1 b1 hs hb
          cases hs; cases hb; exact h
        · simp [App.saveSettings, h]


/-- One event: the mode flips exactly when the event completes the countdown,
and the counter goes up by one exactly when that happens in Study mode. -/
theorem App.step_mode_counter (e : AppEvent) (w : App) :
    (App.step e w).user.isStudyMode =
      (if App.completes e w then !w.user.isStudyMode else w.user.isStudyMode) ∧
    (App.step e w).user.completedSessions =
      (if App.completes e w && w.user.isStudyMode then w.user.completedSessions + 1
        else w.user.completedSessions) := by
  cases e with
  | clickToggle =>
    simp [App.step, App.completes, (App.toggleTimer_fields w).1, (App.toggleTimer_fields w).2.1]
  | clickReset =>
    simp [App.step, App.completes, (App.resetTimer_fields w).1, (App.resetTimer_fields w).2.1]
  | clickSettings => simp [App.step, App.completes, App.setDom]
  | clickCancel => simp [App.step, App.completes, App.setDom]
  | clickSave s b =>
    simp [App.step, App.completes, (App.saveSettings_fields s b w).1,
      (App.saveSettings_fields s b w).2.1]
  | tick =>
    simp only [App.step, App.completes, App.fire_eq, beq_self_eq_true, Bool.true_and]
    cases hi : w.intervals.isEmpty
    · by_cases hr : w.timer.remaining - 1 ≤ 0
      · simp only [Bool.false_eq_true, if_false, hr, if_true, Bool.not_false, decide_True,
          Bool.true_and, Bool.and_self]
        rw [(App.switchMode_fields _).1, (App.switchMode_fields _).2.1]
        simp [Timer.pause_user, App.updateDisplay, App.setDom]
      · simp [hr, App.updateDisplay, App.setDom]
    · simp
  | timeout =>
    have hne : (AppEvent.timeout == AppEvent.tick) = false := by decide
    simp only [App.step, App.completes, hne, Bool.false_and, Bool.false_eq_true, if_false]
    split_ifs <;> simp [(App.playAudio_fields _).2.2.1, (App.playAudio_fields _).2.2.2.1]

/-- Bookkeeping for one more event in front of a run: `c` says whether it
completes the countdown, `m` is the mode before it, `k` counts the completions
after it, `n` is the counter before it. -/
theorem App.mode_counter_step (c m : Bool) (k n : Nat) :
    ((if k % 2 = 0 then (if c then !m else m) else !(if c then !m else m)) =
      (if ((if c then 1 else 0) + k) % 2 = 0 then m else !m)) ∧
    ((if (c && m) then n + 1 else n) +
        (if (if c then !m else m) then (k + 1) / 2 else k / 2) =
      n + (if m then ((if c then 1 else 0) + k + 1) / 2 else ((if c then 1 else 0) + k) / 2)) := by
  have h2 : k % 2 = 0 ∨ k % 2 = 1 := by omega
  cases c <;> cases m <;> refine ⟨?_, ?_⟩ <;> rcases h2 with h | h <;>
    simp [h, Nat.add_mod] <;> omega

/-- Mode and counter after a run, from any starting state, in terms of the
number of completions during the run. -/
theorem App.run_mode_counter (es : List AppEvent) (w : App) :
    (App.run es w).user.isStudyMode =
      (if App.completions es w % 2 = 0 then w.user.isStudyMode else !w.user.isStudyMode) ∧
    (App.run es w).user.completedSessions =
      w.user.completedSessions +
        (if w.user.isStudyMode then (App.completions es w + 1) / 2 else App.completions es w / 2) := by
  induction es generalizing w with
  | nil => simp [App.run, App.completions]
  | cons e es ih =>
    obtain ⟨h1, h2⟩ := ih (App.step e w)
    obtain ⟨s1, s2⟩ := App.step_mode_counter e w
    simp only [App.run, App.completions]
    rw [h1, h2, s1, s2]
    exact App.mode_counter_step _ _ _ _


/-- C3: from the initial App state, whatever events are interleaved, after k
countdown completions the mode is Study iff k is even and completedSessions is
ceil(k/2); an event that completes the countdown (it runs complete(), hence
switchMode) flips the mode and adds one to the counter exactly when it leaves
Study; every other event leaves mode and counter as they are. -/
theorem C3_modes_alternate_sessions_counted (page : Dom) (es : List AppEvent) :
    ((App.run es (App.new page)).user.isStudyMode = true ↔
        Even (App.completions es (App.new page))) ∧
    (App.run es (App.new page)).user.completedSessions =
        (App.completions es (App.new page) + 1) / 2 ∧
    ∀ (e : AppEvent) (w : App),
      (App.completes e w = true →
        App.step e w = Timer.complete App.switchMode
          (App.updateDisplay (w.timer.remaining - 1) w.timer.initialDuration
            { w with timer := { w.timer with remaining := w.timer.remaining - 1 } })) ∧
      (App.completes e w = true → w.user.isStudyMode = true →
        (App.step e w).user.isStudyMode = false ∧
        (App.step e w).user.completedSessions = w.user.completedSessions + 1) ∧
      (App.completes e w = true → w.user.isStudyMode = false →
        (App.step e w).user.isStudyMode = true ∧
        (App.step e w).user.completedSessions = w.user.completedSessions) ∧
      (App.completes e w = false →
        (App.step e w).user.isStudyMode = w.user.isStudyMode ∧
        (App.step e w).user.completedSessions = w.user.completedSessions) := by
  obtain ⟨h1, h2⟩ := App.run_mode_counter es (App.new page)
  have i1 : (App.new page).user.isStudyMode = true := rfl
  have i2 : (App.new page).user.completedSessions = 0 := rfl
  refine ⟨?_, ?_, ?_⟩
  · rw [h1, i1, Nat.even_iff]
    by_cases h : App.completions es (App.new page) % 2 = 0 <;> simp [h]
  · rw [h2, i1, i2]; simp
  · intro e w
    obtain ⟨s1, s2⟩ := App.step_mode_counter e w
    refine ⟨?_, ?_, ?_, ?_⟩
    · intro hc
      cases e <;> simp [App.completes] at hc
      obtain ⟨hi, hr⟩ := hc
      have hi2 : w.intervals.isEmpty = false := by
        cases hw : w.intervals with
        | nil => exact absurd hw hi
        | cons a l => rfl
      simp only [App.step, App.fire_eq, hi2, Bool.false_eq_true, if_false]
      have hr2 : w.timer.remaining - 1 ≤ 0 := by omega
      simp only [hr2, if_true, Timer.complete]
    · intro hc hm
      rw [s1, s2]; simp [hc, hm]
    · intro hc hm
      rw [s1, s2]; simp [hc, hm]
    · intro hc
      rw [s1, s2]; simp [hc]


/-! ## The interval table -/

/-- A callback that leaves timer and interval table alone keeps them in agreement. -/
theorem scheduled_frames {σ : Type} (f : World σ → World σ) (hf : FramesTimer f)
    (w : World σ) (h : Scheduled w) : Scheduled (f w) := by
  obtain ⟨a, b, _⟩ := hf w
  unfold Scheduled
  rw [a, b]
  exact h

/-- After `pause` nothing is scheduled. -/
theorem scheduled_pause {σ : Type} (w : World σ) (h : Scheduled w) :
    Scheduled (Timer.pause w) ∧ (Timer.pause w).intervals = [] := by
  unfold Timer.pause
  cases hr : w.timer.isRunning with
  | false =>
    simp only [Bool.not_false, if_true]
    exact ⟨h, h.2 hr⟩
  | true =>
    obtain ⟨k, hk, hi⟩ := h.1 hr
    simp [Scheduled, hk, hi, clearInterval]

/-- After `start` the timer's interval is scheduled. -/
theorem scheduled_start {σ : Type} (w : World σ) (h : Scheduled w) :
    Scheduled (Timer.start w) ∧ (Timer.start w).intervals ≠ [] := by
  unfold Timer.start
  cases hr : w.timer.isRunning with
  | false =>
    have hi := h.2 hr
    simp [Scheduled, hi]
  | true =>
    obtain ⟨k, hk, hi⟩ := h.1 hr
    simp only [if_true]
    refine ⟨h, ?_⟩
    rw [hi]; simp

/-- After `reset` nothing is scheduled, when `onTick` leaves the timer alone. -/
theorem scheduled_reset {σ : Type} (onTick : Int → Int → World σ → World σ)
    (hT : ∀ r d, FramesTimer (onTick r d)) (d : Option Int) (w : World σ) (h : Scheduled w) :
    Scheduled (Timer.reset onTick d w) ∧ (Timer.reset onTick d w).intervals = [] := by
  obtain ⟨hp, hi⟩ := scheduled_pause w h
  have hrun : (Timer.pause w).timer.isRunning = false := by rw [Timer.pause_timer]
  unfold Timer.reset
  simp only [(hT _ _ _).2.1]
  refine ⟨scheduled_frames _ (hT _ _) _ ?_, ?_⟩
  · cases truthy d <;> simp [Scheduled, hrun, hi]
  · cases truthy d <;> simp [hi]


/-! ## The invariant of the App -/

/-- Writing to the page leaves timer and interval table alone. -/
theorem App.setDom_frames (f : Dom → Dom) : FramesTimer (App.setDom f) :=
  fun _ => ⟨rfl, rfl, rfl⟩

/-- `playAudio` leaves timer and interval table alone. -/
theorem App.playAudio_frames : FramesTimer App.playAudio := by
  intro w
  unfold App.playAudio
  split_ifs <;> exact ⟨rfl, rfl, rfl⟩

/-- The invariant holds right after the constructor. -/
theorem App.inv_new (page : Dom) : App.Inv (App.new page) := by
  simp [App.Inv, App.new, App.updateDisplay, App.setDom, World.init, Timer.new,
    App.activeMinutes, Scheduled]

/-- `toggleTimer` keeps the invariant. -/
theorem App.inv_toggleTimer (w : App) (h : App.Inv w) : App.Inv (App.toggleTimer w) := by
  obtain ⟨h1, h2, h3, h4, h5, h6⟩ := h
  obtain ⟨f1, _, f3, f4, f5, f6, _⟩ := App.toggleTimer_fields w
  refine ⟨by rw [f3]; exact h1, by rw [f4]; exact h2, ?_, by rw [f6]; exact h4,
    by rw [f6, f5]; exact h5, ?_⟩
  · rw [f5, h3]; simp only [App.activeMinutes, f1, f3, f4]
  · unfold App.toggleTimer
    split
    · exact scheduled_frames _ (App.setDom_frames _) _
        (scheduled_frames _ (App.setDom_frames _) _ (scheduled_pause w h6).1)
    · exact scheduled_frames _ App.playAudio_frames _
        (scheduled_frames _ (App.setDom_frames _) _ (scheduled_start w h6).1)

/-- `resetTimer` keeps the invariant. -/
theorem App.inv_resetTimer (w : App) (h : App.Inv w) : App.Inv (App.resetTimer w) := by
  obtain ⟨h1, h2, h3, h4, h5, h6⟩ := h
  obtain ⟨f1, _, f3, f4, f5, f6, _⟩ := App.resetTimer_fields w
  have hact : App.activeMinutes (App.resetTimer w) = App.activeMinutes w := by
    simp only [App.activeMinutes, f1, f3, f4]
  have hpos : 0 < App.activeMinutes w := by
    unfold App.activeMinutes; split <;> assumption
  refine ⟨by rw [f3]; exact h1, by rw [f4]; exact h2, ?_, ?_, by rw [f6, f5], ?_⟩
  · rw [f5, h3, hact]
  · rw [f6, h3]; omega
  · unfold App.resetTimer
    exact scheduled_frames _ (App.setDom_frames _) _
      (scheduled_frames _ (App.setDom_frames _) _
        (scheduled_frames _ (App.setDom_frames _) _
          (scheduled_reset _ App.updateDisplay_frames none w h6).1))

/-- `saveSettings` keeps the invariant. -/
theorem App.inv_saveSettings (s b : Option Int) (w : App) (h : App.Inv w) :
    App.Inv (App.saveSettings s b w) := by
  obtain ⟨f1, _, f3⟩ := App.saveSettings_fields s b w
  rcases f3 with ⟨s0, b0, rfl, rfl, hs, hb, g1, g2, g3, g4, _⟩ | ⟨_, hsame⟩
  · have hact : App.activeMinutes (App.saveSettings (some s0) (some b0) w) =
        (if w.user.isStudyMode then s0 else b0) := by
      simp only [App.activeMinutes, f1, g1, g2]
    have hpos : 0 < (if w.user.isStudyMode then s0 else b0) := by
      split <;> assumption
    refine ⟨by rw [g1]; exact hs, by rw [g2]; exact hb, ?_, ?_, by rw [g3, g4], ?_⟩
    · rw [g3, hact]; ring
    · rw [g4]; omega
    · have hw1 : Scheduled
          ({ w with user := { w.user with studyTime := s0, breakTime := b0 } } : App) :=
        h.2.2.2.2.2
      simp only [App.saveSettings, hs, hb, and_self, if_true]
      refine scheduled_frames _ (App.setDom_frames _) _ ?_
      split
      · exact (scheduled_reset _ App.updateDisplay_frames _ _ hw1).1
      · exact (scheduled_reset _ App.updateDisplay_frames _ _ hw1).1
  · rw [hsame]; exact h


/-- `switchMode` keeps timer and interval table in agreement. -/
theorem App.switchMode_scheduled (w : App) (h : Scheduled w) : Scheduled (App.switchMode w) := by
  have key : ∀ (d : Option Int) (v : App), Scheduled v →
      Scheduled (Timer.start (Timer.reset App.updateDisplay d v)) := fun d v hv =>
    (scheduled_start _ (scheduled_reset _ App.updateDisplay_frames d v hv).1).1
  have hfr : ∀ (v : App) (u : AppFields), Scheduled v → Scheduled ({ v with user := u } : App) :=
    fun v u hv => hv
  cases hm : w.user.isStudyMode
  · have e : App.switchMode w =
        { Timer.start (Timer.reset App.updateDisplay (some w.user.studyTime)
            (App.setDom (fun d => { d with modeIndicator := "Modo Estudio", bodyModeBreak := false })
              (App.setDom (fun d => { d with audioGong := Audio.play { d.audioGong with currentTime := 0 } })
                { w with user := { w.user with isStudyMode := true } }))) with
          user := (App.switchMode w).user } := by
      simp [App.switchMode, hm, App.setDom]
    rw [e]
    exact hfr _ _ (key _ _ (scheduled_frames _ (App.setDom_frames _) _
      (scheduled_frames _ (App.setDom_frames _) _ (hfr _ _ h))))
  · have e : App.switchMode w =
        { Timer.start (Timer.reset App.updateDisplay (some w.user.breakTime)
            (App.setDom (fun d => { d with modeIndicator := "Modo Descanso", bodyModeBreak := true })
              (App.setDom (fun d => { d with audioGong := Audio.play { d.audioGong with currentTime := 0 } })
                { w with user :=
                  { w.user with
                    completedSessions := w.user.completedSessions + 1
                    isStudyMode := false
                    dom := { w.user.dom with
                      pomodoroCounter := "Sesiones: " ++ toString (w.user.completedSessions + 1) } } }))) with
          user := (App.switchMode w).user } := by
      simp [App.switchMode, hm, App.setDom]
    rw [e]
    exact hfr _ _ (key _ _ (scheduled_frames _ (App.setDom_frames _) _
      (scheduled_frames _ (App.setDom_frames _) _ (hfr _ _ h))))

/-- A firing of the interval keeps the invariant. -/
theorem App.inv_fire (w : App) (h : App.Inv w) : App.Inv (Timer.fire App.callbacks w) := by
  obtain ⟨h1, h2, h3, h4, h5, h6⟩ := h
  rw [App.fire_eq]
  split
  · exact ⟨h1, h2, h3, h4, h5, h6⟩
  · have hdec : Scheduled
        ({ w with timer := { w.timer with remaining := w.timer.remaining - 1 } } : App) := h6
    split
    · obtain ⟨f1, _, f3, f4, _, _, f7, f8⟩ := App.switchMode_fields
        (Timer.pause (App.updateDisplay (w.timer.remaining - 1) w.timer.initialDuration
          { w with timer := { w.timer with remaining := w.timer.remaining - 1 } }))
      simp only [Timer.pause_user, Timer.pause_timer] at f1 f3 f4 f8
      have e1 : ∀ r d (v : App), (App.updateDisplay r d v).user.isStudyMode = v.user.isStudyMode :=
        fun _ _ _ => rfl
      have e2 : ∀ r d (v : App), (App.updateDisplay r d v).user.studyTime = v.user.studyTime :=
        fun _ _ _ => rfl
      have e3 : ∀ r d (v : App), (App.updateDisplay r d v).user.breakTime = v.user.breakTime :=
        fun _ _ _ => rfl
      rw [e1] at f1
      rw [e2] at f3
      rw [e3] at f4
      simp only [e1, e2, e3] at f8
      have hst : w.user.studyTime ≠ 0 := by omega
      have hbt : w.user.breakTime ≠ 0 := by omega
      simp only [hst, hbt, if_false] at f8
      refine ⟨by rw [f3]; exact h1, by rw [f4]; exact h2, ?_, ?_, by rw [f7], ?_⟩
      · rw [f8]; simp only [App.activeMinutes, f1, f3, f4]
        cases w.user.isStudyMode <;> simp <;> ring
      · rw [f7, f8]; split <;> omega
      · exact App.switchMode_scheduled _
          (scheduled_pause _ (scheduled_frames _ (App.updateDisplay_frames _ _) _ hdec)).1
    · refine ⟨h1, h2, h3, ?_, ?_, scheduled_frames _ (App.updateDisplay_frames _ _) _ hdec⟩
      · show 1 ≤ w.timer.remaining - 1
        omega
      · show w.timer.remaining - 1 ≤ w.timer.initialDuration
        omega

/-- Every event handler keeps the invariant. -/
theorem App.inv_step (e : AppEvent) (w : App) (h : App.Inv w) : App.Inv (App.step e w) := by
  cases e with
  | clickToggle => exact App.inv_toggleTimer w h
  | clickReset => exact App.inv_resetTimer w h
  | clickSettings => exact h
  | clickCancel => exact h
  | clickSave s b => exact App.inv_saveSettings s b w h
  | tick => exact App.inv_fire w h
  | timeout =>
    simp only [App.step]
    split
    · exact h
    · obtain ⟨t, i, m, _, st, bt, _⟩ := App.playAudio_fields
        { w with user := { w.user with timeouts := w.user.timeouts - 1 } }
      obtain ⟨h1, h2, h3, h4, h5, h6⟩ := h
      refine ⟨by rw [st]; exact h1, by rw [bt]; exact h2, ?_, by rw [t]; exact h4,
        by rw [t]; exact h5, ?_⟩
      · rw [t]; simp only [App.activeMinutes, m, st, bt]; exact h3
      · exact scheduled_frames _ App.playAudio_frames _ h6

/-- The invariant holds after every run that starts in a state where it holds. -/
theorem App.inv_run (es : List AppEvent) (w : App) (h : App.Inv w) : App.Inv (App.run es w) := by
  induction es generalizing w with
  | nil => exact h
  | cons e es ih => exact ih _ (App.inv_step e w h)

/-- The invariant holds in every reachable state. -/
theorem App.inv_of_reachable (w : App) (h : App.Reachable w) : App.Inv w := by
  obtain ⟨page, es, rfl⟩ := h
  exact App.inv_run es _ (App.inv_new page)


/-! ## Completing a countdown -/

/-- Delivering `n` tick events is `n` firings of the interval. -/
theorem App.run_tick_events (n : Nat) (w : App) :
    App.run (List.replicate n AppEvent.tick) w = (Timer.fire App.callbacks)^[n] w := by
  induction n generalizing w with
  | zero => rfl
  | succ k ih =>
    rw [List.replicate_succ, Function.iterate_succ_apply]
    exact ih _

/-- While more than `n` seconds remain, `n` firings leave mode, counter and
settings of the App as they are. -/
theorem App.fire_iterate_fields (w : App) (hs : w.intervals ≠ []) (n : Nat)
    (h : (n : Int) < w.timer.remaining) :
    ((Timer.fire App.callbacks)^[n] w).user.isStudyMode = w.user.isStudyMode ∧
    ((Timer.fire App.callbacks)^[n] w).user.completedSessions = w.user.completedSessions ∧
    ((Timer.fire App.callbacks)^[n] w).user.studyTime = w.user.studyTime ∧
    ((Timer.fire App.callbacks)^[n] w).user.breakTime = w.user.breakTime := by
  induction n with
  | zero => simp
  | succ k ih =>
    have hk : (k : Int) < w.timer.remaining := by push_cast at h; omega
    obtain ⟨a1, a2, a3, a4⟩ := ih hk
    obtain ⟨i1, i2, _⟩ := Timer.fire_iterate App.callbacks App.updateDisplay_frames w hs k hk
    have hne : ((Timer.fire App.callbacks)^[k] w).intervals.isEmpty = false := by
      rw [i2]; cases hw : w.intervals with
      | nil => exact absurd hw hs
      | cons a l => rfl
    have hpos : ¬ (((Timer.fire App.callbacks)^[k] w).timer.remaining - 1 ≤ 0) := by
      rw [i1]; push_cast at h; simp only; omega
    rw [Function.iterate_succ_apply', App.fire_eq]
    simp only [hne, Bool.false_eq_true, if_false, hpos]
    exact ⟨a1, a2, a3, a4⟩

/-- The App after the first click on the toggle button and `n < 1500` ticks:
still in the first Study countdown, `n` seconds into it. -/
theorem App.first_countdown (page : Dom) (n : Nat) (hn : n < 1500) :
    (App.run (AppEvent.clickToggle :: List.replicate n AppEvent.tick) (App.new page)).timer =
      { initialDuration := 1500, remaining := 1500 - n, isRunning := true, interval := some 0 } ∧
    (App.run (AppEvent.clickToggle :: List.replicate n AppEvent.tick) (App.new page)).intervals
      = [0] ∧
    (App.run (AppEvent.clickToggle :: List.replicate n AppEvent.tick)
      (App.new page)).user.isStudyMode = true ∧
    (App.run (AppEvent.clickToggle :: List.replicate n AppEvent.tick)
      (App.new page)).user.completedSessions = 0 ∧
    (App.run (AppEvent.clickToggle :: List.replicate n AppEvent.tick)
      (App.new page)).user.studyTime = 25 ∧
    (App.run (AppEvent.clickToggle :: List.replicate n AppEvent.tick)
      (App.new page)).user.breakTime = 5 := by
  have ht : (App.toggleTimer (App.new page)).timer =
      { initialDuration := 1500, remaining := 1500, isRunning := true, interval := some 0 } := by
    simp [App.toggleTimer, App.new, App.updateDisplay, App.setDom, World.init, Timer.new,
      Timer.start, App.playAudio]
  have hi : (App.toggleTimer (App.new page)).intervals = [0] := by
    simp [App.toggleTimer, App.new, App.updateDisplay, App.setDom, World.init, Timer.new,
      Timer.start, App.playAudio]
  obtain ⟨f1, f2, f3, f4, _⟩ := App.toggleTimer_fields (App.new page)
  have hne : (App.toggleTimer (App.new page)).intervals ≠ [] := by rw [hi]; simp
  have hlt : (n : Int) < (App.toggleTimer (App.new page)).timer.remaining := by
    rw [ht]; simp only; omega
  obtain ⟨a, b, _⟩ := Timer.fire_iterate App.callbacks App.updateDisplay_frames _ hne n hlt
  obtain ⟨g1, g2, g3, g4⟩ := App.fire_iterate_fields _ hne n hlt
  simp only [App.run, App.step, App.run_tick_events]
  refine ⟨by rw [a, ht], by rw [b, hi], by rw [g1, f1]; rfl, by rw [g2, f2]; rfl,
    by rw [g3, f3]; rfl, by rw [g4, f4]; rfl⟩


/-- A tick completes the countdown exactly when an interval is scheduled and
at most one second remains. -/
theorem App.completes_tick_iff (w : App) :
    App.completes AppEvent.tick w = true ↔ w.intervals ≠ [] ∧ w.timer.remaining ≤ 1 := by
  simp only [App.completes, beq_self_eq_true, Bool.true_and, Bool.and_eq_true,
    Bool.not_eq_true', decide_eq_true_eq]
  constructor
  · rintro ⟨hi, hr⟩
    refine ⟨?_, by omega⟩
    intro hnil
    rw [hnil] at hi
    exact absurd hi (by decide)
  · rintro ⟨hi, hr⟩
    refine ⟨?_, by omega⟩
    cases hw : w.intervals with
    | nil => exact absurd hw hi
    | cons a l => rfl

/-- The tick that completes a countdown, in a state where the invariant holds:
the mode flips, the counter goes up when Study ends, and the timer runs again,
refilled with the duration of the new mode. -/
theorem App.completing_tick (w : App) (hinv : App.Inv w)
    (hc : App.completes AppEvent.tick w = true) :
    (App.step AppEvent.tick w).user.isStudyMode = (!w.user.isStudyMode) ∧
    (App.step AppEvent.tick w).user.completedSessions =
      (if w.user.isStudyMode then w.user.completedSessions + 1 else w.user.completedSessions) ∧
    (App.step AppEvent.tick w).user.studyTime = w.user.studyTime ∧
    (App.step AppEvent.tick w).user.breakTime = w.user.breakTime ∧
    (App.step AppEvent.tick w).timer.isRunning = true ∧
    (App.step AppEvent.tick w).timer.remaining = (App.step AppEvent.tick w).timer.initialDuration ∧
    (App.step AppEvent.tick w).timer.initialDuration =
      60 * (if w.user.isStudyMode then w.user.breakTime else w.user.studyTime) := by
  obtain ⟨h1, h2, _, _, _, _⟩ := hinv
  simp only [App.completes, beq_self_eq_true, Bool.true_and, Bool.and_eq_true,
    Bool.not_eq_true', decide_eq_true_eq] at hc
  obtain ⟨hi, hr⟩ := hc
  simp only [App.step, App.fire_eq, hi, Bool.false_eq_true, if_false, hr, if_true]
  obtain ⟨f1, f2, f3, f4, _, f6, f7, f8⟩ := App.switchMode_fields
    (Timer.pause (App.updateDisplay (w.timer.remaining - 1) w.timer.initialDuration
      { w with timer := { w.timer with remaining := w.timer.remaining - 1 } }))
  simp only [Timer.pause_user, Timer.pause_timer] at f1 f2 f3 f4 f8
  have hst : w.user.studyTime ≠ 0 := by omega
  have hbt : w.user.breakTime ≠ 0 := by omega
  refine ⟨f1, f2, f3, f4, f6, f7, ?_⟩
  rw [f8]
  show (if w.user.isStudyMode = true then
      (if w.user.breakTime = 0 then _ else w.user.breakTime * 60)
    else (if w.user.studyTime = 0 then _ else w.user.studyTime * 60)) = _
  simp only [hst, hbt, if_false]
  split <;> ring

/-- C4: in a reachable state with the countdown running, the tick that
completes the countdown (complete() runs switchMode) leads from Study to Break
with completedSessions one greater, the timer running, initialDuration =
60 * breakTime and remaining = initialDuration; from Break it leads to Study
with the timer running at 60 * studyTime and the counter unchanged. From the
initial state (25 and 5 minutes), after the countdown is started and 1500
ticks have passed, the mode is Break, completedSessions = 1 and the running
timer has a total of 300 seconds. -/
theorem C4_completion_switches_mode_and_restarts :
    (∀ w : App, App.Reachable w → w.timer.isRunning = true →
      App.completes AppEvent.tick w = true →
      (w.user.isStudyMode = true →
        (App.step AppEvent.tick w).user.isStudyMode = false ∧
        (App.step AppEvent.tick w).user.completedSessions = w.user.completedSessions + 1 ∧
        (App.step AppEvent.tick w).timer.isRunning = true ∧
        (App.step AppEvent.tick w).timer.initialDuration =
          60 * (App.step AppEvent.tick w).user.breakTime ∧
        (App.step AppEvent.tick w).user.breakTime = w.user.breakTime ∧
        (App.step AppEvent.tick w).timer.remaining =
          (App.step AppEvent.tick w).timer.initialDuration) ∧
      (w.user.isStudyMode = false →
        (App.step AppEvent.tick w).user.isStudyMode = true ∧
        (App.step AppEvent.tick w).user.completedSessions = w.user.completedSessions ∧
        (App.step AppEvent.tick w).timer.isRunning = true ∧
        (App.step AppEvent.tick w).timer.initialDuration =
          60 * (App.step AppEvent.tick w).user.studyTime ∧
        (App.step AppEvent.tick w).user.studyTime = w.user.studyTime ∧
        (App.step AppEvent.tick w).timer.remaining =
          (App.step AppEvent.tick w).timer.initialDuration)) ∧
    (∀ page : Dom,
      (App.run (AppEvent.clickToggle :: List.replicate 1500 AppEvent.tick)
        (App.new page)).user.isStudyMode = false ∧
      (App.run (AppEvent.clickToggle :: List.replicate 1500 AppEvent.tick)
        (App.new page)).user.completedSessions = 1 ∧
      (App.run (AppEvent.clickToggle :: List.replicate 1500 AppEvent.tick)
        (App.new page)).timer.initialDuration = 300 ∧
      (App.run (AppEvent.clickToggle :: List.replicate 1500 AppEvent.tick)
        (App.new page)).timer.remaining = 300 ∧
      (App.run (AppEvent.clickToggle :: List.replicate 1500 AppEvent.tick)
        (App.new page)).timer.isRunning = true) := by
  constructor
  · intro w hreach _ hc
    obtain ⟨f1, f2, f3, f4, f5, f6, f7⟩ :=
      App.completing_tick w (App.inv_of_reachable w hreach) hc
    constructor
    · intro hm
      rw [hm] at f1 f2 f7
      exact ⟨f1, f2, f5, by rw [f7, f4]; rfl, f4, f6⟩
    · intro hm
      rw [hm] at f1 f2 f7
      exact ⟨f1, f2, f5, by rw [f7, f3]; rfl, f3, f6⟩
  · intro page
    have hsplit : AppEvent.clickToggle :: List.replicate 1500 AppEvent.tick =
        (AppEvent.clickToggle :: List.replicate 1499 AppEvent.tick) ++ [AppEvent.tick] := by
      rw [List.cons_append, ← List.replicate_succ']
    have hrun : ∀ (es : List AppEvent) (e : AppEvent) (v : App),
        App.run (es ++ [e]) v = App.step e (App.run es v) := by
      intro es e v
      induction es generalizing v with
      | nil => rfl
      | cons a l ih => exact ih _
    obtain ⟨t, i, m, c, st, bt⟩ := App.first_countdown page 1499 (by norm_num)
    have hinv : App.Inv (App.run (AppEvent.clickToggle :: List.replicate 1499 AppEvent.tick)
        (App.new page)) := App.inv_run _ _ (App.inv_new page)
    have hc : App.completes AppEvent.tick
        (App.run (AppEvent.clickToggle :: List.replicate 1499 AppEvent.tick) (App.new page))
        = true := by
      rw [App.completes_tick_iff, i, t]
      exact ⟨by simp, by norm_num⟩
    obtain ⟨f1, f2, _, _, f5, f6, f7⟩ := App.completing_tick _ hinv hc
    rw [hsplit, hrun]
    rw [m] at f1 f2 f7
    rw [c] at f2
    rw [bt] at f7
    refine ⟨f1, f2, by rw [f7]; rfl, by rw [f6, f7]; rfl, f5⟩

/-- C4 at the state one second before the end of the first Study countdown. -/
theorem C4_completion_switches_mode_and_restarts_witness :
    App.Reachable (App.run (AppEvent.clickToggle :: List.replicate 1499 AppEvent.tick)
      (App.new Dom.blank)) ∧
    (App.step AppEvent.tick (App.run (AppEvent.clickToggle :: List.replicate 1499 AppEvent.tick)
      (App.new Dom.blank))).user.isStudyMode = false :=
  ⟨⟨Dom.blank, _, rfl⟩,
    ((C4_completion_switches_mode_and_restarts.1 _ ⟨Dom.blank, _, rfl⟩
      (by rw [(App.first_countdown Dom.blank 1499 (by norm_num)).1])
      (by rw [App.completes_tick_iff, (App.first_countdown Dom.blank 1499 (by norm_num)).1,
            (App.first_countdown Dom.blank 1499 (by norm_num)).2.1]
          exact ⟨by simp, by norm_num⟩)).1
      (App.first_countdown Dom.blank 1499 (by norm_num)).2.2.1).1⟩

/-- C9: in every reachable state the timer's initialDuration is 60 times the
minutes configured for the current mode, so resetTimer leaves the timer not
running with remaining = 60 * studyTime in Study mode and 60 * breakTime in
Break mode (resetTimer itself changes neither the mode nor the settings). -/
theorem C9_reset_restores_mode_duration (w : App) (h : App.Reachable w) :
    (App.resetTimer w).timer.isRunning = false ∧
    (w.user.isStudyMode = true → (App.resetTimer w).timer.remaining = 60 * w.user.studyTime) ∧
    (w.user.isStudyMode = false → (App.resetTimer w).timer.remaining = 60 * w.user.breakTime) ∧
    w.timer.initialDuration = 60 * App.activeMinutes w ∧
    (App.resetTimer w).user.isStudyMode = w.user.isStudyMode ∧
    (App.resetTimer w).user.studyTime = w.user.studyTime ∧
    (App.resetTimer w).user.breakTime = w.user.breakTime := by
  obtain ⟨_, _, h3, _⟩ := App.inv_of_reachable w h
  obtain ⟨f1, _, f3, f4, _, f6, f7⟩ := App.resetTimer_fields w
  refine ⟨f7, ?_, ?_, h3, f1, f3, f4⟩
  · intro hm
    rw [f6, h3]; simp [App.activeMinutes, hm]
  · intro hm
    rw [f6, h3]; simp [App.activeMinutes, hm]

/-- C9 after a settings update to 50 and 10 minutes and a started countdown. -/
theorem C9_reset_restores_mode_duration_witness :
    App.Reachable (App.run [AppEvent.clickSave (some 50) (some 10), AppEvent.clickToggle]
      (App.new Dom.blank)) ∧
    (App.resetTimer (App.run [AppEvent.clickSave (some 50) (some 10), AppEvent.clickToggle]
      (App.new Dom.blank))).timer.remaining = 60 * 50 :=
  ⟨⟨Dom.blank, _, rfl⟩,
    (C9_reset_restores_mode_duration _ ⟨Dom.blank, _, rfl⟩).2.1 (by decide)⟩


/-! ## Settings -/

/-- C5: when either parsed input is not a number or is not above zero,
saveSettings changes nothing at all: studyTime, breakTime, the timer's
initialDuration, remaining and isRunning keep their values and the settings
dialog is not closed. -/
theorem C5_invalid_settings_rejected (s b : Option Int) (w : App)
    (h : (∀ s0, s = some s0 → s0 ≤ 0) ∨ (∀ b0, b = some b0 → b0 ≤ 0)) :
    App.saveSettings s b w = w ∧
    (App.saveSettings s b w).user.studyTime = w.user.studyTime ∧
    (App.saveSettings s b w).user.breakTime = w.user.breakTime ∧
    (App.saveSettings s b w).timer = w.timer ∧
    (App.saveSettings s b w).user.dom.modalHidden = w.user.dom.modalHidden := by
  have key : App.saveSettings s b w = w := by
    cases s with
    | none => simp [App.saveSettings]
    | some s0 =>
      cases b with
      | none => simp [App.saveSettings]
      | some b0 =>
        have hn : ¬ (0 < s0 ∧ 0 < b0) := by
          rintro ⟨hs, hb⟩
          rcases h with h | h
          · have := h s0 rfl; omega
          · have := h b0 rfl; omega
        simp [App.saveSettings, hn]
  rw [key]
  exact ⟨rfl, rfl, rfl, rfl, rfl⟩

/-- C5 for a study value of 0 while a countdown is running with the dialog open. -/
theorem C5_invalid_settings_rejected_witness :
    ((∀ s0 : Int, some (0 : Int) = some s0 → s0 ≤ 0) ∨ (∀ b0 : Int, some (5 : Int) = some b0 → b0 ≤ 0)) ∧
    App.saveSettings (some 0) (some 5) (App.step AppEvent.clickSettings App.afterOneTick) =
      App.step AppEvent.clickSettings App.afterOneTick :=
  ⟨Or.inl (fun s0 h => by cases h; decide),
    (C5_invalid_settings_rejected (some 0) (some 5) _
      (Or.inl (fun s0 h => by cases h; decide))).1⟩

/-- C6 fails: one second into the first Study countdown (1499 seconds left,
running, studyTime 25), saving the unchanged values 25 and 5 stops the timer
and puts remaining back to 1500. -/
theorem C6_counterexample :
    App.afterOneTick.user.isStudyMode = true ∧ App.afterOneTick.user.studyTime = 25 ∧
    App.afterOneTick.user.breakTime = 5 ∧
    App.afterOneTick.timer.remaining = 1499 ∧ App.afterOneTick.timer.isRunning = true ∧
    (App.saveSettings (some 25) (some 5) App.afterOneTick).timer.remaining = 1500 ∧
    (App.saveSettings (some 25) (some 5) App.afterOneTick).timer.isRunning = false := by
  decide

/-- C6 as amended: whenever saveSettings accepts its inputs (both above zero)
it stores them, closes the dialog and resets the countdown, whether or not a
value changed: the timer is left not running with initialDuration =
remaining = 60 * the accepted value of the active mode, the other value has
no effect on the timer, and mode and counter are kept. In a reachable state
where the accepted value of the active mode equals the previous one,
initialDuration is therefore unchanged. -/
theorem C6_accepted_settings_always_reset (s b : Int) (w : App) (hs : 0 < s) (hb : 0 < b) :
    (App.saveSettings (some s) (some b) w).user.studyTime = s ∧
    (App.saveSettings (some s) (some b) w).user.breakTime = b ∧
    (App.saveSettings (some s) (some b) w).user.dom.modalHidden = true ∧
    (App.saveSettings (some s) (some b) w).timer.isRunning = false ∧
    (App.saveSettings (some s) (some b) w).timer.initialDuration =
      60 * (if w.user.isStudyMode then s else b) ∧
    (App.saveSettings (some s) (some b) w).timer.remaining =
      60 * (if w.user.isStudyMode then s else b) ∧
    (App.saveSettings (some s) (some b) w).user.isStudyMode = w.user.isStudyMode ∧
    (App.saveSettings (some s) (some b) w).user.completedSessions = w.user.completedSessions ∧
    (App.Reachable w → (if w.user.isStudyMode then s else b) = App.activeMinutes w →
      (App.saveSettings (some s) (some b) w).timer.initialDuration = w.timer.initialDuration) := by
  obtain ⟨f1, f2, f3⟩ := App.saveSettings_fields (some s) (some b) w
  rcases f3 with ⟨s0, b0, e1, e2, _, _, g1, g2, g3, g4, g5⟩ | ⟨hn, _⟩
  · cases e1; cases e2
    have hmodal : (App.saveSettings (some s) (some b) w).user.dom.modalHidden = true := by
      simp [App.saveSettings, hs, hb, App.setDom]
    refine ⟨g1, g2, hmodal, g5, by rw [g3]; ring, by rw [g4]; ring, f1, f2, ?_⟩
    intro hreach hsame
    rw [g3, (App.inv_of_reachable w hreach).2.2.1, ← hsame]; ring
  · exact absurd ⟨hs, hb⟩ (hn s b rfl rfl)

/-- C6 as amended, one second into the first Study countdown. -/
theorem C6_accepted_settings_always_reset_witness :
    (0 : Int) < 25 ∧ (0 : Int) < 5 ∧
    (App.saveSettings (some 25) (some 5) App.afterOneTick).timer.isRunning = false ∧
    (App.saveSettings (some 25) (some 5) App.afterOneTick).timer.remaining =
      60 * (if App.afterOneTick.user.isStudyMode then 25 else 5) :=
  ⟨by decide, by decide,
    (C6_accepted_settings_always_reset 25 5 App.afterOneTick (by decide) (by decide)).2.2.2.1,
    (C6_accepted_settings_always_reset 25 5 App.afterOneTick (by decide) (by decide)).2.2.2.2.2.1⟩


/-! ## Durations and bounds of the countdown engine -/

/-- C7 fails: the constructor accepts 0 and -2 minutes, giving initialDuration
0 and -120, and reset(-1) on a one-minute Timer replaces its initialDuration
60 by -60. -/
theorem C7_counterexample :
    (Timer.new 0).initialDuration ≤ 0 ∧ (Timer.new (-2)).initialDuration = -120 ∧
    (World.init 1 ([] : List Call)).timer.initialDuration = 60 ∧
    (Timer.reset spy.onTick (some (-1)) (World.init 1 ([] : List Call))).timer.initialDuration
      = -60 := by
  decide

/-- C7 as amended: the Timer does not validate durations. Constructed with
d <= 0 minutes it has initialDuration = 60*d <= 0; reset(0) leaves
initialDuration as it was (0 counts as no argument); reset(d) with d < 0 sets
initialDuration = 60*d. Non-positive durations are kept out by the caller:
in every reachable App state the settings and the timer's initialDuration are
above zero. -/
theorem C7_durations_not_validated {σ : Type} (onTick : Int → Int → World σ → World σ)
    (hT : ∀ r t, FramesTimer (onTick r t)) (d : Int) (hd : d ≤ 0) (w : World σ) :
    (Timer.new d).initialDuration = 60 * d ∧ (Timer.new d).initialDuration ≤ 0 ∧
    (d = 0 → (Timer.reset onTick (some d) w).timer.initialDuration = w.timer.initialDuration) ∧
    (d < 0 → (Timer.reset onTick (some d) w).timer.initialDuration = 60 * d) ∧
    (∀ v : App, App.Reachable v →
      0 < v.user.studyTime ∧ 0 < v.user.breakTime ∧ 0 < v.timer.initialDuration) := by
  refine ⟨by simp [Timer.new]; ring, by simp only [Timer.new]; omega, ?_, ?_, ?_⟩
  · intro h0
    rw [Timer.reset_timer onTick hT]
    simp [truthy, h0]
  · intro hneg
    have hne : d ≠ 0 := by omega
    rw [Timer.reset_timer onTick hT]
    simp [truthy, hne]; ring
  · intro v hv
    obtain ⟨h1, h2, h3, _⟩ := App.inv_of_reachable v hv
    refine ⟨h1, h2, ?_⟩
    rw [h3]
    unfold App.activeMinutes
    split <;> omega

/-- C7 as amended, for reset(-1) on a one-minute Timer with recording callbacks. -/
theorem C7_durations_not_validated_witness :
    (∀ r t, FramesTimer (spy.onTick r t)) ∧ (-1 : Int) ≤ 0 ∧
    (Timer.reset spy.onTick (some (-1)) (World.init 1 ([] : List Call))).timer.initialDuration
      = 60 * (-1) :=
  ⟨spy_onTick_frames, by decide,
    (C7_durations_not_validated spy.onTick spy_onTick_frames (-1) (by decide)
      (World.init 1 ([] : List Call))).2.2.2.1 (by decide)⟩

/-- C8: on every Timer state, reset() keeps initialDuration and reset(d) with
d > 0 sets it to 60*d; either way remaining = initialDuration and isRunning =
false afterwards, and the tick callback was invoked exactly once, with the
new remaining and initialDuration (the recording callback's log grew by that
one entry). -/
theorem C8_reset_refills_and_reports_once (w : World (List Call)) (d : Int) (hd : 0 < d) :
    ((Timer.reset spy.onTick none w).timer.initialDuration = w.timer.initialDuration ∧
      (Timer.reset spy.onTick none w).timer.remaining =
        (Timer.reset spy.onTick none w).timer.initialDuration ∧
      (Timer.reset spy.onTick none w).timer.isRunning = false ∧
      (Timer.reset spy.onTick none w).user =
        w.user ++ [Call.onTick (Timer.reset spy.onTick none w).timer.remaining
          (Timer.reset spy.onTick none w).timer.initialDuration]) ∧
    ((Timer.reset spy.onTick (some d) w).timer.initialDuration = 60 * d ∧
      (Timer.reset spy.onTick (some d) w).timer.remaining =
        (Timer.reset spy.onTick (some d) w).timer.initialDuration ∧
      (Timer.reset spy.onTick (some d) w).timer.isRunning = false ∧
      (Timer.reset spy.onTick (some d) w).user =
        w.user ++ [Call.onTick (Timer.reset spy.onTick (some d) w).timer.remaining
          (Timer.reset spy.onTick (some d) w).timer.initialDuration]) := by
  have hne : d ≠ 0 := by omega
  have hu : ∀ (a : Option Int), (Timer.reset spy.onTick a w).user =
      w.user ++ [Call.onTick (Timer.reset spy.onTick a w).timer.remaining
        (Timer.reset spy.onTick a w).timer.initialDuration] := by
    intro a
    rw [Timer.reset_timer spy.onTick spy_onTick_frames]
    unfold Timer.reset
    cases truthy a <;> simp [spy, Timer.pause_user, Timer.pause_timer]
  refine ⟨⟨?_, ?_, ?_, hu none⟩, ⟨?_, ?_, ?_, hu (some d)⟩⟩
  all_goals rw [Timer.reset_timer spy.onTick spy_onTick_frames]
  all_goals simp [truthy, hne]
  ring

/-- C8 for a running one-minute Timer three seconds into its countdown. -/
theorem C8_reset_refills_and_reports_once_witness :
    (0 : Int) < 2 ∧
    (Timer.reset spy.onTick none (spyRun 1 3)).timer.remaining = (spyRun 1 3).timer.initialDuration ∧
    (Timer.reset spy.onTick (some 2) (spyRun 1 3)).timer.initialDuration = 60 * 2 :=
  ⟨by decide,
    ((C8_reset_refills_and_reports_once (spyRun 1 3) 2 (by decide)).1.2.1).trans
      (C8_reset_refills_and_reports_once (spyRun 1 3) 2 (by decide)).1.1,
    (C8_reset_refills_and_reports_once (spyRun 1 3) 2 (by decide)).2.1⟩


/-- A number below ten is written as its one digit. -/
theorem repr_one_digit (n : Nat) (h : n < 10) :
    Nat.repr n = String.mk [Nat.digitChar n] := by
  have key : ∀ k, k < 10 → Nat.repr k = String.mk [Nat.digitChar k] := by decide
  exact key n h

/-- A number from ten to ninety-nine is written as its two digits. -/
theorem repr_two_digits (n : Nat) (h : n < 100) (h10 : 10 ≤ n) :
    Nat.repr n = String.mk [Nat.digitChar (n / 10), Nat.digitChar (n % 10)] := by
  have key : ∀ k, k < 100 → 10 ≤ k →
      Nat.repr k = String.mk [Nat.digitChar (k / 10), Nat.digitChar (k % 10)] := by decide
  exact key n h h10

/-- `pause` on a timer that is not running returns the state as it is. -/
theorem Timer.pause_of_stopped {σ : Type} (w : World σ) (h : w.timer.isRunning = false) :
    Timer.pause w = w := by
  simp [Timer.pause, h]

/-- `start` on a running timer returns the state as it is. -/
theorem Timer.start_of_running {σ : Type} (w : World σ) (h : w.timer.isRunning = true) :
    Timer.start w = w := by
  simp [Timer.start, h]

/-- C13: on every Timer state, a second pause() changes nothing after the
first and a second start() changes nothing after the first, comparing the
whole state: remaining, initialDuration, isRunning, the interval handle and
the table of scheduled intervals. When the interval table agrees with the
timer, exactly one interval is scheduled after start(); start(), so one tick
per second is delivered. -/
theorem C13_pause_start_idempotent {σ : Type} (w : World σ) :
    Timer.pause (Timer.pause w) = Timer.pause w ∧
    Timer.start (Timer.start w) = Timer.start w ∧
    (Scheduled w → (Timer.start (Timer.start w)).intervals.length = 1 ∧
      (Timer.pause (Timer.pause w)).intervals.length = 0) := by
  refine ⟨?_, ?_, ?_⟩
  · exact Timer.pause_of_stopped _ (by rw [Timer.pause_timer])
  · exact Timer.start_of_running _ (Timer.start_timer w).1
  · intro hs
    have h1 : (Timer.start w).timer.isRunning = true := (Timer.start_timer w).1
    obtain ⟨k, _, hk⟩ := (scheduled_start _ (scheduled_start w hs).1).1.1
      (Timer.start_timer (Timer.start w)).1
    have h2 := (scheduled_pause _ (scheduled_pause w hs).1).2
    rw [hk, h2]
    exact ⟨rfl, rfl⟩

/-- C13 for a fresh one-minute Timer with recording callbacks. -/
theorem C13_pause_start_idempotent_witness :
    Scheduled (World.init 1 ([] : List Call)) ∧
    (Timer.start (Timer.start (World.init 1 ([] : List Call)))).intervals.length = 1 :=
  ⟨⟨fun h => absurd h Bool.false_ne_true, fun _ => rfl⟩,
    ((C13_pause_start_idempotent (World.init 1 ([] : List Call))).2.2
      ⟨fun h => absurd h Bool.false_ne_true, fun _ => rfl⟩).1⟩

/-! ## Ambient audio -/

/-- A run over two sequences of events is the run over the second from where
the first ends. -/
theorem App.run_events_append (a b : List AppEvent) (w : App) :
    App.run (a ++ b) w = App.run b (App.run a w) := by
  induction a generalizing w with
  | nil => rfl
  | cons e a ih => exact ih _

/-- A run with one more event at the end is that event's handler after the run. -/
theorem App.run_snoc (es : List AppEvent) (e : AppEvent) (w : App) :
    App.run (es ++ [e]) w = App.step e (App.run es w) := by
  rw [App.run_events_append]; rfl

/-- The App after the first click on the toggle button and 1500 ticks: the
first Study countdown has completed and the Break countdown is running. -/
theorem App.first_completion (page : Dom) :
    (App.run (AppEvent.clickToggle :: List.replicate 1500 AppEvent.tick)
      (App.new page)).timer.isRunning = true ∧
    (App.run (AppEvent.clickToggle :: List.replicate 1500 AppEvent.tick)
      (App.new page)).user.isStudyMode = false := by
  have hsplit : AppEvent.clickToggle :: List.replicate 1500 AppEvent.tick =
      (AppEvent.clickToggle :: List.replicate 1499 AppEvent.tick) ++ [AppEvent.tick] := by
    rw [List.cons_append, ← List.replicate_succ']
  obtain ⟨t, i, m, _, _, _⟩ := App.first_countdown page 1499 (by norm_num)
  have hinv : App.Inv (App.run (AppEvent.clickToggle :: List.replicate 1499 AppEvent.tick)
      (App.new page)) := App.inv_run _ _ (App.inv_new page)
  have hc : App.completes AppEvent.tick
      (App.run (AppEvent.clickToggle :: List.replicate 1499 AppEvent.tick) (App.new page))
      = true := by
    rw [App.completes_tick_iff, i, t]
    exact ⟨by simp, by norm_num⟩
  obtain ⟨f1, _, _, _, f5, _, _⟩ := App.completing_tick _ hinv hc
  rw [hsplit, App.run_snoc]
  rw [m] at f1
  exact ⟨f5, f1⟩

/-- The App paused by hand right after its first completion is not running. -/
theorem App.pausedAfterCompletion_stopped :
    App.pausedAfterCompletion.timer.isRunning = false := by
  have hstep : ∀ v : App, App.step AppEvent.clickToggle v = App.toggleTimer v := fun _ => rfl
  have ht := (App.toggleTimer_fields (App.run
    (AppEvent.clickToggle :: List.replicate 1500 AppEvent.tick) (App.new Dom.blank))).2.2.2.2.2.2
  rw [(App.first_completion Dom.blank).1] at ht
  unfold App.pausedAfterCompletion
  rw [App.run_snoc, hstep, ht]
  rfl

/-- C16: when the timer is not running, playAudio returns the state as it
is, so a delayed callback that fires then starts or pauses neither ambient
track and leaves both playback positions (and the rest of the page and the
timer) unchanged; it only is no longer pending. -/
theorem C16_delayed_playAudio_when_stopped (w : App) (h : w.timer.isRunning = false) :
    App.playAudio w = w ∧
    (App.step AppEvent.timeout w).user.dom.audioZen = w.user.dom.audioZen ∧
    (App.step AppEvent.timeout w).user.dom.audioLofi = w.user.dom.audioLofi ∧
    (App.step AppEvent.timeout w).user.dom = w.user.dom ∧
    (App.step AppEvent.timeout w).timer = w.timer ∧
    (App.step AppEvent.timeout w).user.timeouts = w.user.timeouts - 1 := by
  have hp : ∀ v : App, v.timer.isRunning = false → App.playAudio v = v := by
    intro v hv
    simp [App.playAudio, hv]
  have hstep : App.step AppEvent.timeout w =
      if w.user.timeouts = 0 then w
      else { w with user := { w.user with timeouts := w.user.timeouts - 1 } } := by
    simp only [App.step]
    split
    · rfl
    · exact hp _ h
  refine ⟨hp w h, ?_, ?_, ?_, ?_, ?_⟩ <;> rw [hstep] <;> split <;> first | rfl | omega

/-- C16 for the App paused by hand right after its first completion. -/
theorem C16_delayed_playAudio_when_stopped_witness :
    App.pausedAfterCompletion.timer.isRunning = false ∧
    (App.step AppEvent.timeout App.pausedAfterCompletion).user.dom.audioLofi =
      App.pausedAfterCompletion.user.dom.audioLofi :=
  ⟨App.pausedAfterCompletion_stopped,
    (C16_delayed_playAudio_when_stopped App.pausedAfterCompletion
      App.pausedAfterCompletion_stopped).2.2.1⟩

/-- C17: in every reachable App state, seen between two event handlers,
1 <= timer.remaining <= timer.initialDuration; the tick that completes a
countdown does not leave remaining at zero, because switchMode refills the
timer with the next mode's full duration (at least 60 seconds) before the
handler returns. -/
theorem C17_app_never_rests_at_zero (w : App) (h : App.Reachable w) :
    1 ≤ w.timer.remaining ∧ w.timer.remaining ≤ w.timer.initialDuration ∧
    (App.completes AppEvent.tick w = true →
      (App.step AppEvent.tick w).timer.remaining =
        (App.step AppEvent.tick w).timer.initialDuration ∧
      60 ≤ (App.step AppEvent.tick w).timer.remaining) := by
  have hinv := App.inv_of_reachable w h
  obtain ⟨h1, h2, _, h4, h5, _⟩ := id hinv
  refine ⟨h4, h5, ?_⟩
  intro hc
  obtain ⟨_, _, _, _, _, f6, f7⟩ := App.completing_tick w hinv hc
  refine ⟨f6, ?_⟩
  rw [f6, f7]
  split <;> omega

/-- C17 one second into the first Study countdown. -/
theorem C17_app_never_rests_at_zero_witness :
    App.Reachable App.afterOneTick ∧ 1 ≤ App.afterOneTick.timer.remaining :=
  ⟨⟨Dom.blank, _, rfl⟩, (C17_app_never_rests_at_zero App.afterOneTick ⟨Dom.blank, _, rfl⟩).1⟩

/-- In the App, `reset` leaves both ambient tracks as they are. -/
theorem App.reset_ambient (d : Option Int) (w : App) :
    (Timer.reset App.updateDisplay d w).user.dom.audioZen = w.user.dom.audioZen ∧
    (Timer.reset App.updateDisplay d w).user.dom.audioLofi = w.user.dom.audioLofi := by
  unfold Timer.reset
  cases truthy d <;> simp [App.updateDisplay, App.setDom, Timer.pause_user]

/-- `switchMode` leaves both ambient tracks as they are (it plays the gong). -/
theorem App.switchMode_ambient (w : App) :
    (App.switchMode w).user.dom.audioZen = w.user.dom.audioZen ∧
    (App.switchMode w).user.dom.audioLofi = w.user.dom.audioLofi := by
  unfold App.switchMode
  simp only [Timer.start_user]
  cases hm : w.user.isStudyMode <;>
    simp [App.setDom, (App.reset_ambient _ _).1, (App.reset_ambient _ _).2, hm]

/-- After `playAudio` at most one ambient track is playing, if that was so before. -/
theorem App.playAudio_notBoth (w : App) (h : App.NotBothPlaying w) :
    App.NotBothPlaying (App.playAudio w) := by
  unfold App.playAudio
  split
  · exact h
  · split
    · exact Or.inr rfl
    · exact Or.inl rfl

/-- Every event handler keeps at most one ambient track playing. -/
theorem App.notBoth_step (e : AppEvent) (w : App) (h : App.NotBothPlaying w) :
    App.NotBothPlaying (App.step e w) := by
  cases e with
  | clickToggle =>
    simp only [App.step, App.toggleTimer]
    split
    · exact Or.inl rfl
    · refine App.playAudio_notBoth _ ?_
      unfold App.NotBothPlaying
      simp only [App.setDom, Timer.start_user]
      exact h
  | clickReset => exact Or.inl rfl
  | clickSettings => exact h
  | clickCancel => exact h
  | clickSave s b =>
    obtain ⟨_, _, f3⟩ := App.saveSettings_fields s b w
    rcases f3 with ⟨s0, b0, rfl, rfl, hs, hb, _⟩ | ⟨_, hsame⟩
    · have hz : (App.saveSettings (some s0) (some b0) w).user.dom.audioZen = w.user.dom.audioZen := by
        simp only [App.saveSettings, hs, hb, and_self, if_true, App.setDom]
        split <;> exact (App.reset_ambient _ _).1
      have hl : (App.saveSettings (some s0) (some b0) w).user.dom.audioLofi =
          w.user.dom.audioLofi := by
        simp only [App.saveSettings, hs, hb, and_self, if_true, App.setDom]
        split <;> exact (App.reset_ambient _ _).2
      show App.NotBothPlaying (App.saveSettings (some s0) (some b0) w)
      unfold App.NotBothPlaying
      rw [hz, hl]
      exact h
    · show App.NotBothPlaying (App.saveSettings s b w)
      rw [hsame]; exact h
  | tick =>
    simp only [App.step, App.fire_eq]
    split
    · exact h
    · split
      · unfold App.NotBothPlaying
        rw [(App.switchMode_ambient _).1, (App.switchMode_ambient _).2, Timer.pause_user]
        exact h
      · exact h
  | timeout =>
    simp only [App.step]
    split
    · exact h
    · exact App.playAudio_notBoth _ h

/-- C18: from an initial page on which audioZen and audioLofi are not both
playing (in particular one on which neither is playing), after any sequence
of events (toggle, reset, settings clicks, ticks with their completions,
delayed playAudio callbacks) the two tracks are never both playing: at least
one of them is paused. -/
theorem C18_ambient_tracks_never_both_playing (page : Dom) (es : List AppEvent)
    (h : page.audioZen.paused = true ∨ page.audioLofi.paused = true) :
    ¬ ((App.run es (App.new page)).user.dom.audioZen.paused = false ∧
        (App.run es (App.new page)).user.dom.audioLofi.paused = false) := by
  have h0 : App.NotBothPlaying (App.new page) := h
  have hrun : ∀ (l : List AppEvent) (v : App), App.NotBothPlaying v →
      App.NotBothPlaying (App.run l v) := by
    intro l
    induction l with
    | nil => exact fun v hv => hv
    | cons e l ih => exact fun v hv => ih _ (App.notBoth_step e v hv)
  rintro ⟨a, b⟩
  rcases hrun es _ h0 with h1 | h1
  · rw [a] at h1; exact Bool.false_ne_true h1
  · rw [b] at h1; exact Bool.false_ne_true h1

/-- C18 for a page with both tracks paused: a started countdown, an accepted
settings update, a second click on the toggle button and a timeout. -/
theorem C18_ambient_tracks_never_both_playing_witness :
    (Dom.blank.audioZen.paused = true ∨ Dom.blank.audioLofi.paused = true) ∧
    ¬ ((App.run [AppEvent.clickToggle, AppEvent.clickSave (some 1) (some 1), AppEvent.clickToggle,
          AppEvent.timeout] (App.new Dom.blank)).user.dom.audioZen.paused = false ∧
        (App.run [AppEvent.clickToggle, AppEvent.clickSave (some 1) (some 1), AppEvent.clickToggle,
          AppEvent.timeout] (App.new Dom.blank)).user.dom.audioLofi.paused = false) :=
  ⟨Or.inl rfl, C18_ambient_tracks_never_both_playing Dom.blank _ (Or.inl rfl)⟩

/-- C19 evaluated: with the countdown started (Study track playing), an
accepted settings update stops the timer through reset but never calls
pauseAudio, so the timer is not running while audioZen is still playing and
the toggle button still reads "Pausar"; the manual pause and the manual reset
of the same running state do silence both ambient tracks. -/
theorem C19_accepted_save_leaves_track_playing :
    App.Reachable App.savedWhileRunning ∧
    App.savedWhileRunning.timer.isRunning = false ∧
    App.savedWhileRunning.user.dom.audioZen.paused = false ∧
    App.savedWhileRunning.user.dom.btnToggle = "<span class=\"icon\">⏸</span> Pausar" ∧
    (App.run [AppEvent.clickToggle, AppEvent.clickToggle] (App.new Dom.blank)).timer.isRunning
      = false ∧
    (App.run [AppEvent.clickToggle, AppEvent.clickToggle]
      (App.new Dom.blank)).user.dom.audioZen.paused = true ∧
    (App.run [AppEvent.clickToggle, AppEvent.clickReset] (App.new Dom.blank)).timer.isRunning
      = false ∧
    (App.run [AppEvent.clickToggle, AppEvent.clickReset]
      (App.new Dom.blank)).user.dom.audioZen.paused = true :=
  ⟨⟨Dom.blank, _, rfl⟩, by decide, by decide, by decide, by decide, by decide, by decide,
    by decide⟩

/-! ## Theorems: stored tasks -/

/-- Input that starts with the expected characters is accepted, and what
follows them is handed on. -/
theorem JSON.expect_append (p s : List Char) : JSON.expect p (p ++ s) = some s := by
  induction p with
  | nil => cases s <;> rfl
  | cons c p ih => simp [JSON.expect, ih]

/-- A hexadecimal digit written by `Nat.digitChar` is read back as its value. -/
theorem JSON.hexVal_digitChar (k : Nat) (h : k < 16) : JSON.hexVal (Nat.digitChar k) = some k := by
  have key : ∀ j, j < 16 → JSON.hexVal (Nat.digitChar j) = some j := by decide
  exact key k h

/-- A character is determined by its code point. -/
theorem char_eq_of_toNat (c : Char) (n : Nat) (h : c.toNat = n) : c = Char.ofNat n := by
  rw [← h, Char.ofNat_toNat]

/-- One unfolding of `unquote` on non-empty input. -/
theorem JSON.unquote_cons (c : Char) (rest : List Char) :
    JSON.unquote (c :: rest) =
      if c = '"' then some ([], rest)
      else if c = '\\' then
        match rest with
        | [] => none
        | e :: rest1 =>
          if e = 'u' then
            match rest1 with
            | a :: b :: c2 :: d :: rest2 =>
              match JSON.hexVal a, JSON.hexVal b, JSON.hexVal c2, JSON.hexVal d,
                  JSON.unquote rest2 with
              | some x, some y, some z, some v, some (s, r) =>
                if 0xD800 ≤ ((x * 16 + y) * 16 + z) * 16 + v ∧
                    ((x * 16 + y) * 16 + z) * 16 + v ≤ 0xDFFF then none
                else some (Char.ofNat (((x * 16 + y) * 16 + z) * 16 + v) :: s, r)
              | _, _, _, _, _ => none
            | _ => none
          else
            match JSON.unescape e, JSON.unquote rest1 with
            | some ch, some (s, r) => some (ch :: s, r)
            | _, _ => none
      else if c.toNat < 0x20 then none
      else
        match JSON.unquote rest with
        | some (s, r) => some (c :: s, r)
        | none => none := by
  rw [JSON.unquote.eq_def]

/-- Reading a two-character escape yields its character in front of what the
rest of the input yields. -/
theorem JSON.unquote_escape (e ch : Char) (tail : List Char) (hu : e ≠ 'u')
    (he : JSON.unescape e = some ch) :
    JSON.unquote ('\\' :: e :: tail) =
      match JSON.unquote tail with
      | some (s, r) => some (ch :: s, r)
      | none => none := by
  rw [JSON.unquote_cons]
  simp only [hu, he, if_false]
  generalize JSON.unquote tail = o
  rcases o with _ | ⟨s, r⟩ <;> simp

/-- Reading what `quoteChar` wrote for `c` yields `c` in front of what the
rest of the input yields. -/
theorem JSON.unquote_quoteChar (c : Char) (tail : List Char) :
    JSON.unquote (JSON.quoteChar c ++ tail) =
      match JSON.unquote tail with
      | some (s, r) => some (c :: s, r)
      | none => none := by
  unfold JSON.quoteChar
  split_ifs with h1 h2 h3 h4 h5 h6 h7 h8
  · rw [char_eq_of_toNat c _ h1]
    exact JSON.unquote_escape 'b' _ tail (by decide) (by decide)
  · rw [char_eq_of_toNat c _ h2]
    exact JSON.unquote_escape 't' _ tail (by decide) (by decide)
  · rw [char_eq_of_toNat c _ h3]
    exact JSON.unquote_escape 'n' _ tail (by decide) (by decide)
  · rw [char_eq_of_toNat c _ h4]
    exact JSON.unquote_escape 'f' _ tail (by decide) (by decide)
  · rw [char_eq_of_toNat c _ h5]
    exact JSON.unquote_escape 'r' _ tail (by decide) (by decide)
  · rw [char_eq_of_toNat c _ h6]
    exact JSON.unquote_escape '"' _ tail (by decide) (by decide)
  · rw [char_eq_of_toNat c _ h7]
    exact JSON.unquote_escape '\\' _ tail (by decide) (by decide)
  · have hz : JSON.hexVal '0' = some 0 := by decide
    have ha := JSON.hexVal_digitChar (c.toNat / 16) (by omega)
    have hb := JSON.hexVal_digitChar (c.toNat % 16) (by omega)
    have hv : ((0 * 16 + 0) * 16 + c.toNat / 16) * 16 + c.toNat % 16 = c.toNat := by omega
    have hns : ¬ (0xD800 ≤ c.toNat ∧ c.toNat ≤ 0xDFFF) := by omega
    rw [List.cons_append, JSON.unquote_cons]
    simp only [List.cons_append, List.nil_append, hz, ha, hb, hv, hns, if_false]
    have hv2 : c.toNat / 16 * 16 + c.toNat % 16 = c.toNat := by omega
    generalize JSON.unquote tail = o
    rcases o with _ | ⟨s, r⟩
    · simp
    · simp only [Nat.zero_mul, Nat.zero_add, hv2, Char.ofNat_toNat]
      simp
      omega
  · have hq : c ≠ '"' := fun hc => h6 (by rw [hc]; rfl)
    have hbs : c ≠ '\\' := fun hc => h7 (by rw [hc]; rfl)
    rw [List.cons_append, List.nil_append, JSON.unquote_cons]
    simp only [hq, hbs, h8, if_false]

/-- Reading what `quoteChars` wrote, followed by the closing quote, yields the
text and hands on the input after the quote. -/
theorem JSON.unquote_quoteChars (s rest : List Char) :
    JSON.unquote (JSON.quoteChars s ++ '"' :: rest) = some (s, rest) := by
  induction s with
  | nil => rw [JSON.quoteChars, List.nil_append, JSON.unquote_cons]; simp
  | cons c s ih =>
    rw [JSON.quoteChars, List.append_assoc, JSON.unquote_quoteChar, ih]

/-- Reading one object that `stringifyTodo` wrote yields the task and hands
on the input after it. -/
theorem JSON.parseTodo_stringifyTodo (t : Todo) (rest : List Char) :
    JSON.parseTodo (JSON.stringifyTodo t ++ rest) = some (t, rest) := by
  obtain ⟨text, completed⟩ := t
  have hq := JSON.unquote_quoteChars text.data
  cases completed <;>
    simp [JSON.parseTodo, JSON.stringifyTodo, JSON.expect, hq]

/-- What `stringifyTodo` writes starts with an opening brace. -/
theorem JSON.stringifyTodo_head (t : Todo) :
    ∃ l, JSON.stringifyTodo t = '\x7b' :: l := by
  unfold JSON.stringifyTodo
  exact ⟨_, rfl⟩

/-- The elements of a non-empty array start with an opening brace. -/
theorem JSON.stringifyItems_head (t : Todo) (ts : List Todo) :
    ∃ l, JSON.stringifyItems (t :: ts) = '\x7b' :: l := by
  obtain ⟨l, hl⟩ := JSON.stringifyTodo_head t
  cases ts with
  | nil => exact ⟨l, by rw [JSON.stringifyItems, hl]⟩
  | cons u us => exact ⟨l ++ ',' :: JSON.stringifyItems (u :: us), by rw [JSON.stringifyItems, hl]; rfl⟩

/-- Every element takes at least one character. -/
theorem JSON.stringifyItems_length (ts : List Todo) :
    ts.length ≤ (JSON.stringifyItems ts).length := by
  induction ts with
  | nil => exact Nat.zero_le _
  | cons t ts ih =>
    obtain ⟨l, hl⟩ := JSON.stringifyTodo_head t
    cases ts with
    | nil => rw [JSON.stringifyItems, hl]; simp
    | cons u us =>
      rw [JSON.stringifyItems, hl]
      simp only [List.length_cons, List.cons_append, List.length_append] at ih ⊢
      omega

/-- Reading the elements `stringifyItems` wrote, up to the closing bracket,
yields the tasks in the same order, given fuel for each of them. -/
theorem JSON.parseItems_stringifyItems (ts : List Todo) (t : Todo) :
    ∀ fuel, (t :: ts).length ≤ fuel →
      JSON.parseItems fuel (JSON.stringifyItems (t :: ts) ++ [']']) = some (t :: ts) := by
  induction ts generalizing t with
  | nil =>
    intro fuel hf
    obtain ⟨k, rfl⟩ : ∃ k, fuel = k + 1 := ⟨fuel - 1, by simp at hf; omega⟩
    rw [JSON.stringifyItems, JSON.parseItems, JSON.parseTodo_stringifyTodo]
    simp
  | cons u us ih =>
    intro fuel hf
    obtain ⟨k, rfl⟩ : ∃ k, fuel = k + 1 := ⟨fuel - 1, by simp at hf; omega⟩
    have hk : (u :: us).length ≤ k := by simp at hf ⊢; omega
    rw [JSON.stringifyItems, JSON.parseItems, List.append_assoc, JSON.parseTodo_stringifyTodo]
    simp only [List.cons_append]
    rw [ih u k hk]
    simp

/-- `JSON.parse` reads back every array of tasks that `JSON.stringify` wrote. -/
theorem JSON.parse_stringify (ts : List Todo) : JSON.parse (JSON.stringify ts) = some ts := by
  cases ts with
  | nil => simp [JSON.parse, JSON.stringify, JSON.stringifyItems]
  | cons t ts =>
    obtain ⟨l, hl⟩ := JSON.stringifyItems_head t ts
    have hlen := JSON.stringifyItems_length (t :: ts)
    have hne : JSON.stringifyItems (t :: ts) ++ [']'] ≠ [']'] := by
      rw [hl]; simp
    show (if '[' = '[' then
        (if JSON.stringifyItems (t :: ts) ++ [']'] = [']'] then some []
          else JSON.parseItems (JSON.stringifyItems (t :: ts) ++ [']']).length
            (JSON.stringifyItems (t :: ts) ++ [']']))
        else none) = some (t :: ts)
    rw [if_pos rfl, if_neg hne]
    have hf : (t :: ts).length ≤ (JSON.stringifyItems (t :: ts) ++ [']']).length := by
      rw [List.length_append]; omega
    exact JSON.parseItems_stringifyItems ts t _ hf

/-- What `JSON.stringify` writes is never the empty string. -/
theorem JSON.stringify_ne_empty (ts : List Todo) : JSON.stringify ts ≠ "" := by
  intro h
  have := congrArg String.data h
  simp [JSON.stringify] at this

/-! ## Theorems: the task list -/

/-- `createTodoElement` for each stored task, in order, appends them to the
list and touches nothing else. -/
theorem TaskList.foldl_create (ts : List Todo) (s : TaskList) :
    ts.foldl (fun acc t => TaskList.createTodoElement t.text t.completed acc) s =
      { s with
        todoList := s.todoList ++
          ts.map (fun t => { text := t.text, checked := t.completed, completedClass := t.completed }) } := by
  induction ts generalizing s with
  | nil => simp
  | cons t ts ih =>
    rw [List.foldl_cons, ih]
    simp [TaskList.createTodoElement]

/-- `loadTodos` on a stored serialisation of `ts` appends `ts` to the list. -/
theorem TaskList.loadTodos_of_saved (s : TaskList) (ts : List Todo)
    (h : s.localStorage storageKey = some (JSON.stringify ts)) :
    TaskList.loadTodos s =
      some { s with
        todoList := s.todoList ++
          ts.map (fun t => { text := t.text, checked := t.completed, completedClass := t.completed }) } := by
  unfold TaskList.loadTodos
  rw [h]
  simp only [JSON.stringify_ne_empty, if_false, JSON.parse_stringify, TaskList.foldl_create]

/-- After `saveTodos` the stored value is the serialisation of the list. -/
theorem TaskList.saveTodos_storage (s : TaskList) :
    (TaskList.saveTodos s).localStorage storageKey = some (JSON.stringify s.todos) ∧
    (TaskList.saveTodos s).todoList = s.todoList ∧
    (TaskList.saveTodos s).todos = s.todos ∧
    (TaskList.saveTodos s).todoInput = s.todoInput := by
  simp [TaskList.saveTodos, TaskList.todos]

/-- The tasks of a list rebuilt from stored tasks are the stored tasks. -/
theorem TaskList.todos_rebuilt (ts : List Todo) :
    (ts.map (fun t => { text := t.text, checked := t.completed, completedClass := t.completed
        : TodoItem })).map
      (fun item => { text := item.text, completed := item.checked : Todo }) = ts := by
  induction ts with
  | nil => rfl
  | cons t ts ih => simp [ih]

/-- After `saveTodos` the list is persisted. -/
theorem TaskList.persisted_saveTodos (s : TaskList) : TaskList.Persisted (TaskList.saveTodos s) := by
  obtain ⟨h1, _, h3, _⟩ := TaskList.saveTodos_storage s
  refine ⟨by rw [h1, h3], ?_⟩
  have hload := TaskList.loadTodos_of_saved
    { todoInput := "", todoList := [], localStorage := (TaskList.saveTodos s).localStorage }
    s.todos h1
  refine ⟨_, hload, ?_⟩
  rw [h3]
  simp only [TaskList.todos, List.nil_append]
  exact TaskList.todos_rebuilt _

/-- C12: for every list of tasks, saveTodos followed by loadTodos on an empty
list (the page loaded again) rebuilds one item per task, in the same order,
with the same text and completed value at every position; loadTodos with no
stored value leaves the list empty. -/
theorem C12_save_then_load_roundtrip (s : TaskList) :
    TaskList.reload (TaskList.saveTodos s) =
      some { todoInput := ""
             todoList := s.todoList.map
               (fun item => { text := item.text, checked := item.checked, completedClass := item.checked })
             localStorage := (TaskList.saveTodos s).localStorage } ∧
    (∃ r, TaskList.reload (TaskList.saveTodos s) = some r ∧ r.todos = s.todos ∧
      r.todoList.length = s.todoList.length ∧
      ∀ i, (r.todos.get? i) = (s.todos.get? i)) ∧
    (s.localStorage storageKey = none →
      TaskList.reload s = some { todoInput := "", todoList := [], localStorage := s.localStorage }) := by
  obtain ⟨h1, _, _, _⟩ := TaskList.saveTodos_storage s
  have hload := TaskList.loadTodos_of_saved
    { todoInput := "", todoList := [], localStorage := (TaskList.saveTodos s).localStorage }
    s.todos h1
  have hmap : (s.todos.map (fun t => { text := t.text, checked := t.completed, completedClass := t.completed
      : TodoItem })) =
      s.todoList.map
        (fun item => { text := item.text, checked := item.checked, completedClass := item.checked }) := by
    simp [TaskList.todos, List.map_map, Function.comp_def]
  have hrel : TaskList.reload (TaskList.saveTodos s) =
      some { todoInput := ""
             todoList := s.todoList.map
               (fun item => { text := item.text, checked := item.checked, completedClass := item.checked })
             localStorage := (TaskList.saveTodos s).localStorage } := by
    unfold TaskList.reload
    rw [hload]
    simp only [List.nil_append, hmap]
  refine ⟨hrel, ⟨_, hrel, ?_, ?_, ?_⟩, ?_⟩
  · simp [TaskList.todos, List.map_map, Function.comp_def]
  · simp
  · intro i
    simp [TaskList.todos, List.map_map, Function.comp_def]
  · intro hnone
    simp [TaskList.reload, TaskList.loadTodos, hnone]

/-- C12 for a list with one task and no stored value. -/
theorem C12_save_then_load_roundtrip_witness :
    TaskList.sample.localStorage storageKey = none ∧
    TaskList.reload TaskList.sample =
      some { todoInput := "", todoList := [], localStorage := TaskList.sample.localStorage } :=
  ⟨rfl, (C12_save_then_load_roundtrip TaskList.sample).2.2 rfl⟩

/-- Text that consists of trimmed characters only is empty after trimming. -/
theorem jsTrim_of_blank (str : String) (h : ∀ c ∈ str.data, isTrimChar c = true) :
    jsTrim str = "" := by
  have hd : str.data.dropWhile isTrimChar = [] := List.dropWhile_eq_nil_iff.2 h
  unfold jsTrim
  rw [hd]
  rfl

/-- C14: when the input is empty after trimming (it is empty or holds only
whitespace), addTodo returns the state as it is: the task sequence is
unchanged and nothing is written to storage (the input is not cleared
either). -/
theorem C14_blank_task_ignored (s : TaskList) (h : jsTrim s.todoInput = "") :
    TaskList.addTodo s = s ∧
    (TaskList.addTodo s).todoList = s.todoList ∧
    (TaskList.addTodo s).localStorage = s.localStorage ∧
    (∀ str : String, (∀ c ∈ str.data, isTrimChar c = true) → jsTrim str = "") := by
  have key : TaskList.addTodo s = s := by simp [TaskList.addTodo, h]
  rw [key]
  exact ⟨rfl, rfl, rfl, jsTrim_of_blank⟩

/-- C14 for an input of two blanks, a tab and a line feed. -/
theorem C14_blank_task_ignored_witness :
    jsTrim ({ TaskList.sample with todoInput := "  \t\n" } : TaskList).todoInput = "" ∧
    (TaskList.addTodo { TaskList.sample with todoInput := "  \t\n" }).todoList =
      TaskList.sample.todoList :=
  ⟨by decide, (C14_blank_task_ignored { TaskList.sample with todoInput := "  \t\n" } (by decide)).2.1⟩

/-- Mapping after changing one element is changing one element after mapping. -/
theorem map_modify_comm {α β : Type} (f : α → β) (g : α → α) (g2 : β → β)
    (h : ∀ a, f (g a) = g2 (f a)) (l : List α) (i : Nat) :
    (l.modify g i).map f = (l.map f).modify g2 i := by
  induction l generalizing i with
  | nil => cases i <;> simp
  | cons a l ih =>
    cases i with
    | zero => simp [h]
    | succ j => simp [ih]

/-- Mapping after removing one element is removing one element after mapping. -/
theorem map_eraseIdx_comm {α β : Type} (f : α → β) (l : List α) (i : Nat) :
    (l.eraseIdx i).map f = (l.map f).eraseIdx i := by
  induction l generalizing i with
  | nil => simp
  | cons a l ih =>
    cases i with
    | zero => simp
    | succ j => simp [ih]

/-- C15: after an addTodo with non-blank text, after a click on the checkbox
of an item and after a click on the delete button of an item, the value
stored under 'zenfocus_todos' is the serialisation of all tasks now in the
list (text and completed flag, in display order), and loading the page again
rebuilds a list with exactly these tasks. The new task is appended with the
trimmed text and completed = false; a toggle flips the flag of its task; a
delete removes its task. -/
theorem C15_storage_follows_every_mutation (s : TaskList) :
    (jsTrim s.todoInput ≠ "" →
      TaskList.Persisted (TaskList.addTodo s) ∧
      (TaskList.addTodo s).todos =
        s.todos ++ [{ text := jsTrim s.todoInput, completed := false }]) ∧
    (∀ i, i < s.todoList.length →
      TaskList.Persisted (TaskList.toggleTodo i s) ∧
      (TaskList.toggleTodo i s).todos =
        s.todos.modify (fun t => { t with completed := !t.completed }) i) ∧
    (∀ i, i < s.todoList.length →
      TaskList.Persisted (TaskList.deleteTodo i s) ∧
      (TaskList.deleteTodo i s).todos = s.todos.eraseIdx i) := by
  refine ⟨?_, ?_, ?_⟩
  · intro h
    simp only [TaskList.addTodo, h, if_false]
    refine ⟨TaskList.persisted_saveTodos _, ?_⟩
    rw [(TaskList.saveTodos_storage _).2.2.1]
    simp [TaskList.todos, TaskList.createTodoElement]
  · intro i hi
    simp only [TaskList.toggleTodo, hi, if_true]
    refine ⟨TaskList.persisted_saveTodos _, ?_⟩
    rw [(TaskList.saveTodos_storage _).2.2.1]
    simp only [TaskList.todos]
    apply map_modify_comm
    intro a
    rfl
  · intro i hi
    simp only [TaskList.deleteTodo, hi, if_true]
    refine ⟨TaskList.persisted_saveTodos _, ?_⟩
    rw [(TaskList.saveTodos_storage _).2.2.1]
    simp only [TaskList.todos]
    exact map_eraseIdx_comm _ _ _

/-- C15 for a list with one task: a second task is added, the first is
ticked, the first is deleted. -/
theorem C15_storage_follows_every_mutation_witness :
    jsTrim TaskList.sample.todoInput ≠ "" ∧ 0 < TaskList.sample.todoList.length ∧
    (TaskList.addTodo TaskList.sample).todos =
      TaskList.sample.todos ++ [{ text := jsTrim TaskList.sample.todoInput, completed := false }] ∧
    TaskList.Persisted (TaskList.toggleTodo 0 TaskList.sample) ∧
    TaskList.Persisted (TaskList.deleteTodo 0 TaskList.sample) :=
  ⟨by decide, by decide,
    ((C15_storage_follows_every_mutation TaskList.sample).1 (by decide)).2,
    ((C15_storage_follows_every_mutation TaskList.sample).2.1 0 (by decide)).1,
    ((C15_storage_follows_every_mutation TaskList.sample).2.2 0 (by decide)).1⟩

end PomodoroZen
